import Mathlib

/-!
# Verification of the unbound DNS cache core (services/cache/dns.c, util/data/packed_rrset.c)

This file is a shallow embedding in Lean 4 of the DNS response cache of the
repository: the message/RRset caches, the response synthesizer (direct hit,
CNAME passthrough, DNAME→CNAME synthesis) and the delegation-point walk,
together with theorems settling the specification claims about them.

Modelling conventions:
* DNS names are wire-format byte sequences, `List Nat` (each byte < 256 in
  well-formed states); `qname_len`/`dname_len` fields are kept explicitly,
  as in the C structs.
* Machine integers are `Nat`; where the C code relies on `uint32_t` wrap
  (the TTL rebasing subtraction in `copy_rrset`) the subtraction is embedded
  explicitly modulo `2^32` (`wsub32`).
* `htons`/`ntohs` byte-order conversions are identity in the model: record
  types are carried as plain numbers throughout.
* The caller-supplied bump allocator (`struct region`) is modelled as a
  credit counter: each `region_alloc` consumes one credit and fails
  (returns `none`, the C `NULL`) when the region is exhausted.  This keeps
  every out-of-memory branch of the source.
* Code of the repository that is not under `src/` (the slab-hash containers,
  `util/data/dname.c`, `services/cache/rrset.c`, `iterator/iter_delegpt.c`,
  `util/data/msgreply.c`) is modelled from the specification; each such
  definition carries a doc comment starting with `Modelled from the spec:`.
  Everything else is translated from the source files.
-/

/-! ## Bytes, names, and constants -/

/-- Embeds `LDNS_RR_TYPE_A` -/
def LDNS_RR_TYPE_A : Nat := 1
/-- Embeds `LDNS_RR_TYPE_NS` -/
def LDNS_RR_TYPE_NS : Nat := 2
/-- Embeds `LDNS_RR_TYPE_CNAME` -/
def LDNS_RR_TYPE_CNAME : Nat := 5
/-- Embeds `LDNS_RR_TYPE_AAAA` -/
def LDNS_RR_TYPE_AAAA : Nat := 28
/-- Embeds `LDNS_RR_TYPE_DNAME` -/
def LDNS_RR_TYPE_DNAME : Nat := 39
/-- Embeds `LDNS_RR_TYPE_DS` -/
def LDNS_RR_TYPE_DS : Nat := 43
/-- Embeds `LDNS_RR_TYPE_NSEC` -/
def LDNS_RR_TYPE_NSEC : Nat := 47
/-- Embeds `LDNS_MAX_DOMAINLEN` (255) -/
def LDNS_MAX_DOMAINLEN : Nat := 255
/-- Embeds `BIT_QR` in the reply flags word. -/
def BIT_QR : Nat := 32768
/-- Embeds `LDNS_RCODE_YXDOMAIN` (6), or-ed into the low bits of the flags word. -/
def LDNS_RCODE_YXDOMAIN : Nat := 6

/-- Embeds `rrset_trust_ans_noAA`: ordinal 5 in the `rrset_trust` enumeration
(none=0, add_noAA=1, auth_noAA=2, add_AA=3, nonauth_ans_AA=4, ans_noAA=5,
glue=6, auth_AA=7, ans_AA=8, sec_noglue=9, prim_noglue=10, validated=11,
ultimate=12). -/
def rrset_trust_ans_noAA : Nat := 5

/-- Lowercase one byte, as the canonical (case-insensitive) name comparison
does: ASCII `A`..`Z` map to `a`..`z`, everything else is unchanged.  Label
length bytes (≤ 63) are below `A` (65) and are untouched. -/
def lowerByte (b : Nat) : Nat := if 65 ≤ b ∧ b ≤ 90 then b + 32 else b

/-- Canonical form of a wire-format name: every byte lowercased. -/
def dnameLower (d : List Nat) : List Nat := d.map lowerByte

/-- Embeds `ldns_read_uint16`: big-endian 16-bit read from the first two bytes. -/
def read_uint16 (l : List Nat) : Nat := 256 * l.getD 0 0 + l.getD 1 0

/-- Embeds `ldns_write_uint16`: big-endian 16-bit value as two bytes. -/
def write_uint16 (n : Nat) : List Nat := [n / 256 % 256, n % 256]

/-- Modelled from the spec: `dname_valid` of `util/data/dname.c` (not under
`src/`).  Parses a wire-format name — length-prefixed labels of at most 63
bytes, terminated by the zero-length root label (§3 of the spec) — byte by
byte; `inLabel` counts the bytes still to be consumed of the current label.
Returns the number of bytes the name occupies, `none` when the bytes are
not a complete valid name. -/
def dname_valid_aux : List Nat → Nat → Option Nat
  | [], _ => none
  | b :: rest, 0 =>
      if b = 0 then some 1
      else if 63 < b then none
      else (dname_valid_aux rest b).map (· + 1)
  | _ :: rest, k + 1 => (dname_valid_aux rest k).map (· + 1)

/-- Modelled from the spec: `dname_valid`, total form.  Returns the length of
the valid name (≤ 255 bytes per §3) or `0` when invalid. -/
def dname_valid (l : List Nat) : Nat :=
  match dname_valid_aux l 0 with
  | some k => if k ≤ LDNS_MAX_DOMAINLEN then k else 0
  | none => 0

/-! ## Data model: packed RRsets, query info, reply info -/

/-- Embeds `struct packed_rrset_key` (`rk`): dname bytes, explicit `dname_len`,
type, class and flags.  Types/classes are in host order in the model. -/
structure PackedRrsetKey where
  dname : List Nat
  dname_len : Nat
  type : Nat
  rrclass : Nat
  flags : Nat
  deriving Repr, DecidableEq

/-- Embeds `struct packed_rrset_data`: counts, parallel sequences `rr_len`,
`rr_data` (each entry: 2-byte big-endian rdata length followed by the rdata
bytes), `rr_ttl`, set-level `ttl`, trust and security ordinals.  The packed
one-allocation layout with pointer fixup is a memory optimisation; the
model carries the three sequences directly. -/
structure PackedRrsetData where
  count : Nat
  rrsig_count : Nat
  rr_len : List Nat
  rr_data : List (List Nat)
  rr_ttl : List Nat
  ttl : Nat
  trust : Nat
  security : Nat
  deriving Repr, DecidableEq

/-- Embeds `struct ub_packed_rrset_key`: cache entry.  `id` is the identity tag
(zeroed on deletion); `hash` is `entry.hash`; `data` is `entry.data`. -/
structure UbPackedRrsetKey where
  rk : PackedRrsetKey
  id : Nat
  hash : Nat
  data : PackedRrsetData
  deriving Repr, DecidableEq

/-- Embeds `struct query_info`. -/
structure QueryInfo where
  qname : List Nat
  qname_len : Nat
  qtype : Nat
  qcl : Nat
  deriving Repr, DecidableEq

/-- Embeds `struct reply_info`: flags word, query count, absolute `ttl`, the three
section counts, `rrset_count`, the `rrsets` array (by value in the model),
and the `ref` array of (entry, id-snapshot) pairs used for locking. -/
structure ReplyInfo where
  flags : Nat
  qdcount : Nat
  ttl : Nat
  an_numrrsets : Nat
  ns_numrrsets : Nat
  ar_numrrsets : Nat
  rrset_count : Nat
  rrsets : List UbPackedRrsetKey
  refs : List (UbPackedRrsetKey × Nat)
  deriving Repr, DecidableEq

/-- Embeds `struct dns_msg`. -/
structure DnsMsg where
  qinfo : QueryInfo
  rep : ReplyInfo
  deriving Repr, DecidableEq

/-- Modelled from the spec: the caller-supplied bump arena (§2
ScratchArena, §7 OutOfMemory).  Remaining allocation credits. -/
abbrev Region := Nat

/-- Modelled from the spec: one `region_alloc`.  Fails (C `NULL`) when the
arena is exhausted, otherwise consumes one credit. -/
def region_alloc (r : Region) : Option Region :=
  if r = 0 then none else some (r - 1)

/-- Modelled from the spec: `rrset_key_hash` — a stable mix of the four key
fields in a fixed order (§3).  The exact mixing function (lookup3) is not
under `src/`; any fixed function of the four fields is faithful to the
spec's words. -/
def rrset_key_hash (rk : PackedRrsetKey) : Nat :=
  (dnameLower rk.dname).foldl (fun h b => h * 257 + b + 1)
    (rk.type * 4294967311 + rk.rrclass * 65599 + rk.flags * 131)

/-- Embeds `uint32_t` subtraction `a - b` (as used by `copy_rrset` for TTL
rebasing): computed modulo `2^32`. -/
def wsub32 (a b : Nat) : Nat := (a % 4294967296 + (4294967296 - b % 4294967296)) % 4294967296

/-! ## copy_rrset and get_cname_target (from the source) -/

/-- Embeds `copy_rrset` (`services/cache/dns.c`): deep-copy an RRset into the
region, rebasing every TTL to seconds remaining by the `uint32` subtraction
`x - now`.  Three `region_alloc`s: the key struct, the dname bytes, and the
packed data. -/
def copy_rrset (key : UbPackedRrsetKey) (region : Region) (now : Nat) :
    Option (UbPackedRrsetKey × Region) := do
  let r1 ← region_alloc region      -- ck
  let r2 ← region_alloc r1          -- ck->rk.dname
  let r3 ← region_alloc r2          -- packed data block
  let d := key.data
  some ({ rk := key.rk
          id := key.id
          hash := key.hash
          data := { d with
                    rr_ttl := d.rr_ttl.map (fun t => wsub32 t now)
                    ttl := wsub32 d.ttl now } }, r3)

/-- Embeds `get_cname_target` (`util/data/packed_rrset.c`): extract the target name
from the first RR of a CNAME or DNAME RRset; `none` when the C function
returns without setting the out-parameters. -/
def get_cname_target (rrset : UbPackedRrsetKey) : Option (List Nat) :=
  if rrset.rk.type ≠ LDNS_RR_TYPE_CNAME ∧ rrset.rk.type ≠ LDNS_RR_TYPE_DNAME then none
  else if rrset.data.count < 1 then none
  else
    let rd := rrset.data.rr_data.getD 0 []
    let rl := rrset.data.rr_len.getD 0 0
    if rl < 3 then none
    else
      let len := read_uint16 rd
      if len ≠ rl - 2 then none
      else if dname_valid ((rd.drop 2).take len) ≠ len then none
      else some ((rd.drop 2).take len)

/-! ## The two cache stores (containers modelled from the spec) -/

/-- The RRset cache contents: the slab-hashed LRU container is out of scope
(§1); the model is the plain set of current entries. -/
abbrev RrsetCache := List UbPackedRrsetKey

/-- The message cache contents. -/
abbrev MsgCache := List (QueryInfo × ReplyInfo)

/-- Embeds `struct module_env`: the two caches.  The allocator cache and clock are
passed explicitly. -/
structure ModuleEnv where
  rrset_cache : RrsetCache
  msg_cache : MsgCache
  deriving Repr, DecidableEq

/-- Modelled from the spec: §4.1 `RRsetStore.lookup` — find the entry whose
key (owner name compared case-insensitively, type, class, flags) equals the
argument and verify `entry.data.ttl > now`; an expired entry is a miss.
(`services/cache/rrset.c` is not under `src/`.) -/
def rrset_cache_lookup (cache : RrsetCache) (qname : List Nat) (qnamelen : Nat)
    (ty cl flags now : Nat) : Option UbPackedRrsetKey :=
  cache.find? (fun e =>
    e.rk.dname_len == qnamelen &&
    dnameLower e.rk.dname == dnameLower (qname.take qnamelen) &&
    e.rk.type == ty && e.rk.rrclass == cl && e.rk.flags == flags &&
    now < e.data.ttl)

/-- Modelled from the spec: §5/§4.1 `lock_refs` (`rrset_array_lock`) — for
each stored reference, verify the identity tag still matches the entry and
the entry is unexpired (`ttl > now`); any mismatch fails the whole lock. -/
def rrset_array_lock (refs : List (UbPackedRrsetKey × Nat)) (now : Nat) : Bool :=
  refs.all (fun p => p.2 == p.1.id && now < p.1.data.ttl)

/-- Modelled from the spec: §4.2 `MessageStore.lookup` (`slabhash_lookup`
with `query_info_compare`) — find the entry whose query key matches, names
compared case-insensitively (§3 QueryKey). -/
def msgcache_lookup (cache : MsgCache) (k : QueryInfo) : Option (QueryInfo × ReplyInfo) :=
  cache.find? (fun e =>
    e.1.qname_len == k.qname_len &&
    dnameLower e.1.qname == dnameLower k.qname &&
    e.1.qtype == k.qtype && e.1.qcl == k.qcl)

/-! ## find_closest_of_type (from the source) -/

/-- Embeds `find_closest_of_type` (`services/cache/dns.c`): strip one label at a
time off the front of `qname` until an RRset of `searchtype` is found;
`none` once the name is exhausted. -/
def find_closest_of_type (cache : RrsetCache) (qname : List Nat) (qnamelen : Nat)
    (qcl now searchtype : Nat) : Option UbPackedRrsetKey :=
  if qnamelen = 0 then none
  else
    match rrset_cache_lookup cache qname qnamelen searchtype qcl 0 now with
    | some rrset => some rrset
    | none =>
        let lablen := qname.headD 0
        find_closest_of_type cache (qname.drop (lablen + 1)) (qnamelen - (lablen + 1))
          qcl now searchtype
  termination_by qnamelen
  decreasing_by omega

/-- The ancestor walk sequence of `(qname, qnamelen)`: the name itself, then
each suffix obtained by stripping one front label, while the length is
positive.  Used to state what `find_closest_of_type` computes. -/
def nameSuffixes (qname : List Nat) (qnamelen : Nat) : List (List Nat × Nat) :=
  if qnamelen = 0 then []
  else
    let lablen := qname.headD 0
    (qname, qnamelen) ::
      nameSuffixes (qname.drop (lablen + 1)) (qnamelen - (lablen + 1))
  termination_by qnamelen
  decreasing_by omega

/-! ## The synthesizer (from the source) -/

/-- Embeds `gen_dns_msg` (`services/cache/dns.c`): allocate a `dns_msg` holding a
copy of the query info and room for `num` RRset pointers.  Four
`region_alloc`s: the msg, the qname copy, the reply_info, the rrsets array.
The C code leaves the reply fields uninitialised (every caller assigns all
of them); the model zeroes them. -/
def gen_dns_msg (region : Region) (q : QueryInfo) (num : Nat) :
    Option (DnsMsg × Region) := do
  let r1 ← region_alloc region      -- msg
  let r2 ← region_alloc r1          -- qname copy
  let r3 ← region_alloc r2          -- reply_info
  let r4 ← region_alloc r3          -- rrsets array of size num
  let _ := num
  some ({ qinfo := q
          rep := { flags := 0, qdcount := 0, ttl := 0, an_numrrsets := 0
                   ns_numrrsets := 0, ar_numrrsets := 0, rrset_count := 0
                   rrsets := [], refs := [] } }, r4)

/-- The per-RRset copy loop of `tomsg`: copy each cached RRset into the
region; any allocation failure aborts (the C code unlocks and returns
`NULL`). -/
def copy_rrset_list (l : List UbPackedRrsetKey) (region : Region) (now : Nat) :
    Option (List UbPackedRrsetKey × Region) :=
  match l with
  | [] => some ([], region)
  | k :: rest => do
      let (ck, r1) ← copy_rrset k region now
      let (crest, r2) ← copy_rrset_list rest r1 now
      some (ck :: crest, r2)

/-- Embeds `tomsg` (`services/cache/dns.c`): promote a cached message to a served
`dns_msg`.  Refuses when `now > r.ttl`; locks all referenced RRsets
(stale or expired references fail the lock); deep-copies every RRset with
TTLs rebased to seconds remaining. -/
def tomsg (e : QueryInfo) (r : ReplyInfo) (region : Region) (now : Nat) :
    Option (DnsMsg × Region) := do
  if now > r.ttl then none
  else do
    let (msg0, r1) ← gen_dns_msg region e r.rrset_count
    if !rrset_array_lock r.refs now then none
    else do
      let (copies, r2) ← copy_rrset_list r.rrsets r1 now
      some ({ msg0 with
              rep := { flags := r.flags, qdcount := r.qdcount, ttl := r.ttl
                       an_numrrsets := r.an_numrrsets
                       ns_numrrsets := r.ns_numrrsets
                       ar_numrrsets := r.ar_numrrsets
                       rrset_count := r.rrset_count
                       rrsets := copies, refs := [] } }, r2)

/-- Embeds `cname_msg` (`services/cache/dns.c`): serve a cached CNAME RRset as a
one-RRset answer.  Refuses when `now > d.ttl`. -/
def cname_msg (rrset : UbPackedRrsetKey) (region : Region) (now : Nat)
    (q : QueryInfo) : Option (DnsMsg × Region) := do
  let d := rrset.data
  if now > d.ttl then none
  else do
    let (msg0, r1) ← gen_dns_msg region q 1
    let (ck, r2) ← copy_rrset rrset r1 now
    some ({ msg0 with
            rep := { flags := BIT_QR, qdcount := 1, ttl := d.ttl - now
                     an_numrrsets := 1, ns_numrrsets := 0, ar_numrrsets := 0
                     rrset_count := 1, rrsets := [ck], refs := [] } }, r2)

/-- Embeds `synth_dname_msg` (`services/cache/dns.c`): build the DNAME answer and
append the synthesized CNAME (owner = original qname, target = qname prefix
++ DNAME target, TTL 0, trust `ans_noAA`).  When the rewritten target would
exceed 255 bytes, sets `LDNS_RCODE_YXDOMAIN` in the flags and returns the
message with only the DNAME. -/
def synth_dname_msg (rrset : UbPackedRrsetKey) (region : Region) (now : Nat)
    (q : QueryInfo) : Option (DnsMsg × Region) := do
  let d := rrset.data
  if now > d.ttl then none
  else do
    let (msg0, r1) ← gen_dns_msg region q 2
    let (dnameCopy, r2) ← copy_rrset rrset r1 now
    let rep1 : ReplyInfo :=
      { flags := BIT_QR, qdcount := 1, ttl := d.ttl - now
        an_numrrsets := 1, ns_numrrsets := 0, ar_numrrsets := 0
        rrset_count := 1, rrsets := [dnameCopy], refs := [] }
    match get_cname_target rrset with
    | none => none
    | some dtarg =>
        let newlen := q.qname_len + dtarg.length - rrset.rk.dname_len
        if newlen > LDNS_MAX_DOMAINLEN then
          some ({ msg0 with rep := { rep1 with flags := rep1.flags ||| LDNS_RCODE_YXDOMAIN } }, r2)
        else do
          let r3 ← region_alloc r2    -- newname
          let newname := (q.qname.take (q.qname_len - rrset.rk.dname_len)) ++ dtarg
          let r4 ← region_alloc r3    -- ck
          let r5 ← region_alloc r4    -- ck->rk.dname (copy of q->qname)
          let r6 ← region_alloc r5    -- newd
          let ckData : PackedRrsetData :=
            { count := 1, rrsig_count := 0
              rr_len := [newlen + 2]
              rr_data := [write_uint16 newlen ++ newname]
              rr_ttl := [0]
              ttl := 0
              trust := rrset_trust_ans_noAA
              security := 0 }
          let ck : UbPackedRrsetKey :=
            { rk := { dname := q.qname, dname_len := q.qname_len
                      type := LDNS_RR_TYPE_CNAME
                      rrclass := rrset.rk.rrclass, flags := 0 }
              id := 0
              hash := rrset_key_hash { dname := q.qname, dname_len := q.qname_len
                                       type := LDNS_RR_TYPE_CNAME
                                       rrclass := rrset.rk.rrclass, flags := 0 }
              data := ckData }
          some ({ msg0 with
                  rep := { rep1 with
                           ttl := 0
                           an_numrrsets := 2
                           rrset_count := 2
                           rrsets := [dnameCopy, ck] } }, r6)

/-! ## RRset key comparison (from the source) and the store path -/

/-- Modelled from the spec: `query_dname_compare` of `util/data/dname.c`
(not under `src/`) — canonical, case-insensitive three-way comparison of
wire-format names (§4.1 "dname compared canonically"). -/
def query_dname_compare : List Nat → List Nat → Int
  | [], [] => 0
  | [], _ :: _ => -1
  | _ :: _, [] => 1
  | a :: as, b :: bs =>
      if lowerByte a < lowerByte b then -1
      else if lowerByte b < lowerByte a then 1
      else query_dname_compare as bs

/-- Embeds `ub_rrset_compare` (`util/data/packed_rrset.c`): three-way comparison of
RRset keys — type, then dname length, then canonical dname, then class,
then flags.  The C pointer-equality fast path (`key1 == key2`) has no
separate content under value semantics: identical values compare equal
through the field chain. -/
def ub_rrset_compare (k1 k2 : PackedRrsetKey) : Int :=
  if k1.type ≠ k2.type then (if k1.type < k2.type then -1 else 1)
  else if k1.dname_len ≠ k2.dname_len then (if k1.dname_len < k2.dname_len then -1 else 1)
  else
    let c := query_dname_compare k1.dname k2.dname
    if c ≠ 0 then c
    else if k1.rrclass ≠ k2.rrclass then (if k1.rrclass < k2.rrclass then -1 else 1)
    else if k1.flags ≠ k2.flags then (if k1.flags < k2.flags then -1 else 1)
    else 0

/-- Embeds `rrsetdata_equal` (`util/data/packed_rrset.c`): counts equal and every
`rr_len`/`rr_data` entry byte-equal. -/
def rrsetdata_equal (d1 d2 : PackedRrsetData) : Bool :=
  d1.count == d2.count && d1.rrsig_count == d2.rrsig_count &&
  (List.range (d1.count + d1.rrsig_count)).all (fun i =>
    d1.rr_len.getD i 0 == d2.rr_len.getD i 0 &&
    d1.rr_data.getD i [] == d2.rr_data.getD i [])

/-- Key equality as the RRset store uses it: owner name case-insensitively,
plus dname length, type, class and flags. -/
def sameKey (a b : PackedRrsetKey) : Bool :=
  a.dname_len == b.dname_len && dnameLower a.dname == dnameLower b.dname &&
  a.type == b.type && a.rrclass == b.rrclass && a.flags == b.flags

/-- A fresh non-zero identity tag: one more than the largest tag in the
store (§3 RRsetRef: monotonically assigned on insertion). -/
def freshId (cache : RrsetCache) : Nat :=
  cache.foldr (fun e m => max e.id m) 0 + 1

/-- Embeds `packed_rrset_ttl_add` (`util/data/packed_rrset.c`): add `add` to the
set-level TTL and every per-record TTL. -/
def packed_rrset_ttl_add (d : PackedRrsetData) (add : Nat) : PackedRrsetData :=
  { d with ttl := d.ttl + add, rr_ttl := d.rr_ttl.map (· + add) }

/-- Modelled from the spec: §4.1 `RRsetStore.insert` (`rrset_cache_update`
of `services/cache/rrset.c`, not under `src/`).  Walks the store for an
entry with the same key: none — install with a fresh non-zero id; existing
with strictly higher trust — keep it and adopt it; byte-equal data —
extend the TTLs to the per-record max; otherwise replace the data in place,
bumping the id.  Returns the new store, the canonical entry the caller's
reference now designates, and whether the key was already in the cache.
The store is unbounded in the model (cache-full is never an error, §4.1);
eviction is a policy choice outside these claims. -/
def rrset_cache_update_go (fresh : Nat) (r : UbPackedRrsetKey) :
    RrsetCache → RrsetCache × UbPackedRrsetKey × Bool
  | [] =>
      let inst : UbPackedRrsetKey := { r with id := fresh }
      ([inst], inst, false)
  | e :: rest =>
      if sameKey e.rk r.rk then
        if r.data.trust < e.data.trust then (e :: rest, e, true)
        else if rrsetdata_equal e.data r.data then
          let e' := { e with data :=
            { e.data with
              ttl := max e.data.ttl r.data.ttl
              rr_ttl := List.zipWith max e.data.rr_ttl r.data.rr_ttl } }
          (e' :: rest, e', true)
        else
          let e' := { e with data := r.data, id := fresh }
          (e' :: rest, e', true)
      else
        let (rest', k, b) := rrset_cache_update_go fresh r rest
        (e :: rest', k, b)

/-- Modelled from the spec: wrapper computing the fresh id (see
`rrset_cache_update_go`). -/
def rrset_cache_update (cache : RrsetCache) (r : UbPackedRrsetKey) (_now : Nat) :
    RrsetCache × UbPackedRrsetKey × Bool :=
  rrset_cache_update_go (freshId cache) r cache

/-- Embeds `store_rrsets` (`services/cache/dns.c`): for each constituent RRset,
point the reference at it, insert/merge it into the RRset cache, and adopt
the store-canonical entry back into both the `rrsets` and `ref` arrays. -/
def store_rrsets_go (cache : RrsetCache) (now : Nat) :
    List UbPackedRrsetKey → RrsetCache × List UbPackedRrsetKey × List (UbPackedRrsetKey × Nat)
  | [] => (cache, [], [])
  | k :: rest =>
      let (cache1, adopted, _wasIn) := rrset_cache_update cache k now
      let (cache2, ks, refs) := store_rrsets_go cache1 now rest
      (cache2, adopted :: ks, (adopted, adopted.id) :: refs)

/-- Embeds `store_rrsets`, acting on a whole `reply_info`. -/
def store_rrsets (cache : RrsetCache) (rep : ReplyInfo) (now : Nat) :
    RrsetCache × ReplyInfo :=
  let (cache', ks, refs) := store_rrsets_go cache now rep.rrsets
  (cache', { rep with rrsets := ks, refs := refs })

/-- Insert one reference into a ref list sorted by `ub_rrset_compare`. -/
def insertRef (x : UbPackedRrsetKey × Nat) :
    List (UbPackedRrsetKey × Nat) → List (UbPackedRrsetKey × Nat)
  | [] => [x]
  | y :: rest =>
      if ub_rrset_compare x.1.rk y.1.rk ≤ 0 then x :: y :: rest
      else y :: insertRef x rest

/-- Modelled from the spec: `reply_info_sortref` of `util/data/msgreply.c`
(not under `src/`) — sort the `ref` array by the §4.1 total order on RRset
keys. -/
def reply_info_sortref (rep : ReplyInfo) : ReplyInfo :=
  { rep with refs := rep.refs.foldr insertRef [] }

/-- Modelled from the spec: `reply_info_set_ttls` of `util/data/msgreply.c`
(not under `src/`) — convert the relative TTLs of a parsed reply to
absolute expiry stamps by adding `now` (§4.2: `reply_info.ttl` becomes
`now + capped_min(rr_ttls)`); each constituent RRset gets
`packed_rrset_ttl_add`. -/
def reply_info_set_ttls (rep : ReplyInfo) (now : Nat) : ReplyInfo :=
  { rep with
    ttl := rep.ttl + now
    rrsets := rep.rrsets.map (fun k => { k with data := packed_rrset_ttl_add k.data now })
    refs := rep.refs.map (fun p => ({ p.1 with data := packed_rrset_ttl_add p.1.data now }, p.2)) }

/-- Embeds `dns_cache_store_msg` (`services/cache/dns.c`): capture the relative
`ttl`, set up the references, sort them, make TTLs absolute, store the
RRsets, then — unless the captured ttl was 0 — sort the (rewritten)
references again and insert the message into the message cache.  The
message-entry malloc (`query_info_entrysetup`) and `slabhash_insert` are
modelled as an infallible insert; their failure only skips the message
insertion.  `now` is passed explicitly instead of reading the clock. -/
def dns_cache_store_msg (env : ModuleEnv) (qinfo : QueryInfo) (_hash : Nat)
    (rep : ReplyInfo) (now : Nat) : ModuleEnv :=
  let ttl := rep.ttl
  let rep0 := { rep with refs := rep.rrsets.map (fun k => (k, k.id)) }
  let rep1 := reply_info_sortref rep0
  let rep2 := reply_info_set_ttls rep1 now
  let (cache', rep3) := store_rrsets env.rrset_cache rep2 now
  if ttl = 0 then { env with rrset_cache := cache' }
  else
    let rep4 := reply_info_sortref rep3
    { rrset_cache := cache', msg_cache := (qinfo, rep4) :: env.msg_cache }

/-! ## Delegation point (iter_delegpt.c modelled from the spec) -/

/-- Modelled from the spec: a nameserver entry of a delegation point
(§3 DelegationPoint: "a list of nameserver names"). -/
structure DelegptNs where
  name : List Nat
  namelen : Nat
  deriving Repr, DecidableEq

/-- Modelled from the spec: §3 DelegationPoint — owner name, nameserver
names, attached address RRsets (copied into the arena). -/
structure Delegpt where
  name : List Nat
  namelen : Nat
  nslist : List DelegptNs
  addrsA : List UbPackedRrsetKey
  addrsAAAA : List UbPackedRrsetKey
  deriving Repr, DecidableEq

/-- Modelled from the spec: `delegpt_create` — allocate an empty delegation
point in the region. -/
def delegpt_create (region : Region) : Option (Delegpt × Region) := do
  let r1 ← region_alloc region
  some ({ name := [], namelen := 0, nslist := [], addrsA := [], addrsAAAA := [] }, r1)

/-- Modelled from the spec: `delegpt_set_name` — copy the owner name into
the region and set it. -/
def delegpt_set_name (dp : Delegpt) (name : List Nat) (namelen : Nat)
    (region : Region) : Option (Delegpt × Region) := do
  let r1 ← region_alloc region
  some ({ dp with name := name, namelen := namelen }, r1)

/-- Modelled from the spec: the per-RR loop of `delegpt_rrset_add_ns` —
read each NS rdata (2-byte length prefix followed by the nameserver's wire
name, §4.4 step 2) and add a nameserver entry; an allocation failure stops,
keeping the partial list. -/
def add_ns_loop (dp : Delegpt) (region : Region) :
    List (List Nat) → Delegpt × Region × Bool
  | [] => (dp, region, true)
  | rd :: rest =>
      match region_alloc region with
      | none => (dp, region, false)
      | some r1 =>
          add_ns_loop
            { dp with nslist := dp.nslist ++ [{ name := rd.drop 2, namelen := read_uint16 rd }] }
            r1 rest

/-- Modelled from the spec: `delegpt_rrset_add_ns` — populate the NS name
list from the NS RRset's rdata entries. -/
def delegpt_rrset_add_ns (dp : Delegpt) (nskey : UbPackedRrsetKey)
    (region : Region) : Delegpt × Region × Bool :=
  add_ns_loop dp region (nskey.data.rr_data.take nskey.data.count)

/-- Modelled from the spec: `delegpt_add_rrset_A` / `delegpt_add_rrset_AAAA`
— attach a resolved address RRset (copied into the arena) to the address
table; fails on allocation failure. -/
def delegpt_add_rrset_addr (dp : Delegpt) (akey : UbPackedRrsetKey)
    (isA : Bool) (region : Region) (now : Nat) : Option (Delegpt × Region) := do
  let (ck, r1) ← copy_rrset akey region now
  if isA then some ({ dp with addrsA := dp.addrsA ++ [ck] }, r1)
  else some ({ dp with addrsAAAA := dp.addrsAAAA ++ [ck] }, r1)

/-- Embeds `addr_to_additional` (`services/cache/dns.c`): copy the address RRset
into the message's additional section; allocation failure silently skips. -/
def addr_to_additional (rrset : UbPackedRrsetKey) (region : Region)
    (msg : DnsMsg) (now : Nat) : DnsMsg × Region :=
  match copy_rrset rrset region now with
  | some (ck, r1) =>
      ({ msg with rep := { msg.rep with
          rrsets := msg.rep.rrsets ++ [ck]
          ar_numrrsets := msg.rep.ar_numrrsets + 1
          rrset_count := msg.rep.rrset_count + 1 } }, r1)
  | none => (msg, region)

/-- One nameserver's A-or-AAAA step of `find_add_addrs`: look the type up;
on a hit attach it to the delegation point (failure is fatal for the loop,
`return 0`) and, when building a referral, to the additional section
(failure there is silent). -/
def find_add_one (cache : RrsetCache) (qcl : Nat) (ns : DelegptNs)
    (ty : Nat) (isA : Bool) (dp : Delegpt) (msg : Option DnsMsg)
    (region : Region) (now : Nat) :
    Delegpt × Option DnsMsg × Region × Bool :=
  match rrset_cache_lookup cache ns.name ns.namelen ty qcl 0 now with
  | none => (dp, msg, region, true)
  | some akey =>
      match delegpt_add_rrset_addr dp akey isA region now with
      | none => (dp, msg, region, false)
      | some (dp1, r1) =>
          match msg with
          | none => (dp1, none, r1, true)
          | some m =>
              let (m1, r2) := addr_to_additional akey r1 m now
              (dp1, some m1, r2, true)

/-- Embeds `find_add_addrs` (`services/cache/dns.c`): for each nameserver of the
delegation, look up A then AAAA; an allocation failure attaching an address
to the delegation point aborts the loop with `false` (the caller logs and
continues); failures copying into the additional section are silent. -/
def find_add_addrs_go (cache : RrsetCache) (qcl : Nat)
    (dp : Delegpt) (msg : Option DnsMsg) (region : Region) (now : Nat) :
    List DelegptNs → Delegpt × Option DnsMsg × Region × Bool
  | [] => (dp, msg, region, true)
  | ns :: rest =>
      match find_add_one cache qcl ns LDNS_RR_TYPE_A true dp msg region now with
      | (dp1, msg1, r1, false) => (dp1, msg1, r1, false)
      | (dp1, msg1, r1, true) =>
          match find_add_one cache qcl ns LDNS_RR_TYPE_AAAA false dp1 msg1 r1 now with
          | (dp2, msg2, r2, false) => (dp2, msg2, r2, false)
          | (dp2, msg2, r2, true) =>
              find_add_addrs_go cache qcl dp2 msg2 r2 now rest

/-- Embeds `find_add_addrs`, iterating the delegation's nameserver list. -/
def find_add_addrs (cache : RrsetCache) (qcl : Nat) (dp : Delegpt)
    (msg : Option DnsMsg) (region : Region) (now : Nat) :
    Delegpt × Option DnsMsg × Region × Bool :=
  find_add_addrs_go cache qcl dp msg region now dp.nslist

/-- Embeds `find_add_ds` (`services/cache/dns.c`): look up DS at the delegation
owner, else NSEC; on a hit copy it into the authority section (allocation
failure silently skips). -/
def find_add_ds (cache : RrsetCache) (msg : DnsMsg) (dp : Delegpt)
    (region : Region) (now : Nat) : DnsMsg × Region :=
  let hit :=
    match rrset_cache_lookup cache dp.name dp.namelen LDNS_RR_TYPE_DS
            msg.qinfo.qcl 0 now with
    | some r => some r
    | none => rrset_cache_lookup cache dp.name dp.namelen LDNS_RR_TYPE_NSEC
                msg.qinfo.qcl 0 now
  match hit with
  | none => (msg, region)
  | some rrset =>
      match copy_rrset rrset region now with
      | none => (msg, region)
      | some (ck, r1) =>
          ({ msg with rep := { msg.rep with
              rrsets := msg.rep.rrsets ++ [ck]
              ns_numrrsets := msg.rep.ns_numrrsets + 1
              rrset_count := msg.rep.rrset_count + 1 } }, r1)

/-- Embeds `create_msg` (`services/cache/dns.c`): allocate the referral message —
query copy, reply with flags `BIT_QR` (no AA), `qdcount` 1, and the copied
NS RRset as the first authority RRset.  Any allocation failure yields
`NULL`. -/
def create_msg (qname : List Nat) (qnamelen : Nat) (qtype qcl : Nat)
    (region : Region) (nskey : UbPackedRrsetKey) (now : Nat) :
    Option (DnsMsg × Region) := do
  let r1 ← region_alloc region      -- msg
  let r2 ← region_alloc r1          -- qname copy
  let r3 ← region_alloc r2          -- reply_info
  let r4 ← region_alloc r3          -- rrsets array (2 + 2*count slots)
  let (nsCopy, r5) ← copy_rrset nskey r4 now
  some ({ qinfo := { qname := qname, qname_len := qnamelen
                     qtype := qtype, qcl := qcl }
          rep := { flags := BIT_QR, qdcount := 1, ttl := 0
                   an_numrrsets := 0, ns_numrrsets := 1, ar_numrrsets := 0
                   rrset_count := 1, rrsets := [nsCopy], refs := [] } }, r5)

/-- Embeds `dns_cache_find_delegation` (`services/cache/dns.c`): walk ancestors for
the closest NS RRset; on a hit build the delegation point (allocation
failure here returns `NULL`), optionally the referral message (failure
returns `NULL`), then populate NS names, DS/NSEC and glue — failures in
those steps are logged and the partial delegation point is returned.
`wantMsg` stands for the C `msg` out-parameter being non-NULL; `now` is
passed explicitly instead of reading the clock. -/
def dns_cache_find_delegation (env : ModuleEnv) (qname : List Nat)
    (qnamelen : Nat) (qtype qcl : Nat) (region : Region) (wantMsg : Bool)
    (now : Nat) : Option (Delegpt × Option DnsMsg) :=
  match find_closest_of_type env.rrset_cache qname qnamelen qcl now
          LDNS_RR_TYPE_NS with
  | none => none
  | some nskey =>
      match delegpt_create region with
      | none => none
      | some (dp0, r1) =>
          match delegpt_set_name dp0 nskey.rk.dname nskey.rk.dname_len r1 with
          | none => none
          | some (dp1, r2) =>
              if wantMsg then
                match create_msg qname qnamelen qtype qcl r2 nskey now with
                | none => none
                | some (msg0, r3) =>
                    let nsRes := delegpt_rrset_add_ns dp1 nskey r3
                    let dsRes := find_add_ds env.rrset_cache msg0 nsRes.1 nsRes.2.1 now
                    let addrRes := find_add_addrs env.rrset_cache qcl nsRes.1
                      (some dsRes.1) dsRes.2 now
                    some (addrRes.1, addrRes.2.1)
              else
                let nsRes := delegpt_rrset_add_ns dp1 nskey r2
                let addrRes := find_add_addrs env.rrset_cache qcl nsRes.1 none
                  nsRes.2.1 now
                some (addrRes.1, addrRes.2.1)

/-- Embeds `dns_cache_lookup` (`services/cache/dns.c`): message hit via `tomsg`,
else DNAME walk via `find_closest_of_type`/`synth_dname_msg`, else CNAME at
the exact name via `cname_msg`, else `none`.  `now` is passed explicitly
instead of reading the clock. -/
def dns_cache_lookup (env : ModuleEnv) (qname : List Nat) (qnamelen : Nat)
    (qtype qcl : Nat) (region : Region) (now : Nat) : Option DnsMsg :=
  let k : QueryInfo := { qname := qname, qname_len := qnamelen
                         qtype := qtype, qcl := qcl }
  let afterMsg : Option DnsMsg :=
    match msgcache_lookup env.msg_cache k with
    | some (key, data) =>
        match tomsg key data region now with
        | some (msg, _) => some msg
        | none => none
    | none => none
  match afterMsg with
  | some msg => some msg
  | none =>
      match find_closest_of_type env.rrset_cache qname qnamelen qcl now
              LDNS_RR_TYPE_DNAME with
      | some rrset =>
          (match synth_dname_msg rrset region now k with
           | some (msg, _) => some msg
           | none =>
              -- fall through to the CNAME step, as the C code does
              match rrset_cache_lookup env.rrset_cache qname qnamelen
                      LDNS_RR_TYPE_CNAME qcl 0 now with
              | some crr =>
                  (match cname_msg crr region now k with
                   | some (msg, _) => some msg
                   | none => none)
              | none => none)
      | none =>
          match rrset_cache_lookup env.rrset_cache qname qnamelen
                  LDNS_RR_TYPE_CNAME qcl 0 now with
          | some crr =>
              (match cname_msg crr region now k with
               | some (msg, _) => some msg
               | none => none)
          | none => none

/-! ## Helper values and evaluation lemmas -/

/-- The value `copy_rrset` produces on success: same key fields, TTLs
rebased by the `uint32` subtraction. -/
def copiedRrset (key : UbPackedRrsetKey) (now : Nat) : UbPackedRrsetKey :=
  { rk := key.rk
    id := key.id
    hash := key.hash
    data := { key.data with
              rr_ttl := key.data.rr_ttl.map (fun t => wsub32 t now)
              ttl := wsub32 key.data.ttl now } }

/-- The synthesized CNAME RRset `synth_dname_msg` appends: owner is the
query name, target is the qname prefix concatenated with the DNAME target,
TTL 0, trust `ans_noAA`. -/
def synthCK (rrset : UbPackedRrsetKey) (q : QueryInfo) (dtarg : List Nat) :
    UbPackedRrsetKey :=
  let newlen := q.qname_len + dtarg.length - rrset.rk.dname_len
  let newname := (q.qname.take (q.qname_len - rrset.rk.dname_len)) ++ dtarg
  { rk := { dname := q.qname, dname_len := q.qname_len
            type := LDNS_RR_TYPE_CNAME
            rrclass := rrset.rk.rrclass, flags := 0 }
    id := 0
    hash := rrset_key_hash { dname := q.qname, dname_len := q.qname_len
                             type := LDNS_RR_TYPE_CNAME
                             rrclass := rrset.rk.rrclass, flags := 0 }
    data := { count := 1, rrsig_count := 0
              rr_len := [newlen + 2]
              rr_data := [write_uint16 newlen ++ newname]
              rr_ttl := [0]
              ttl := 0
              trust := rrset_trust_ans_noAA
              security := 0 } }

/-- The full DNAME+CNAME message `synth_dname_msg` produces when the
rewritten name fits. -/
def synthResult (rrset : UbPackedRrsetKey) (q : QueryInfo) (dtarg : List Nat)
    (now : Nat) : DnsMsg :=
  { qinfo := q
    rep := { flags := BIT_QR, qdcount := 1, ttl := 0
             an_numrrsets := 2, ns_numrrsets := 0, ar_numrrsets := 0
             rrset_count := 2
             rrsets := [copiedRrset rrset now, synthCK rrset q dtarg]
             refs := [] } }

/-- The DNAME-only YXDOMAIN message `synth_dname_msg` produces when the
rewritten name exceeds 255 bytes. -/
def synthYxResult (rrset : UbPackedRrsetKey) (q : QueryInfo) (now : Nat) : DnsMsg :=
  { qinfo := q
    rep := { flags := BIT_QR ||| LDNS_RCODE_YXDOMAIN, qdcount := 1
             ttl := rrset.data.ttl - now
             an_numrrsets := 1, ns_numrrsets := 0, ar_numrrsets := 0
             rrset_count := 1
             rrsets := [copiedRrset rrset now]
             refs := [] } }

theorem region_alloc_pos {r : Nat} (h : r ≠ 0) : region_alloc r = some (r - 1) := by
  simp [region_alloc, h]

theorem gen_dns_msg_eval (q : QueryInfo) (num : Nat) {r : Nat} (h : 4 ≤ r) :
    gen_dns_msg r q num = some (⟨q, ⟨0, 0, 0, 0, 0, 0, 0, [], []⟩⟩, r - 4) := by
  have h0 : r ≠ 0 := by omega
  have h1 : r - 1 ≠ 0 := by omega
  have h2 : r - 1 - 1 ≠ 0 := by omega
  have h3 : r - 1 - 1 - 1 ≠ 0 := by omega
  have h4 : r - 1 - 1 - 1 - 1 = r - 4 := by omega
  simp only [gen_dns_msg, region_alloc_pos h0, Option.bind_eq_bind, Option.some_bind,
    region_alloc_pos h1, region_alloc_pos h2, region_alloc_pos h3, h4]

theorem copy_rrset_eval (key : UbPackedRrsetKey) (now : Nat) {r : Nat} (h : 3 ≤ r) :
    copy_rrset key r now = some (copiedRrset key now, r - 3) := by
  have h0 : r ≠ 0 := by omega
  have h1 : r - 1 ≠ 0 := by omega
  have h2 : r - 1 - 1 ≠ 0 := by omega
  have h3 : r - 1 - 1 - 1 = r - 3 := by omega
  simp only [copy_rrset, region_alloc_pos h0, Option.bind_eq_bind, Option.some_bind,
    region_alloc_pos h1, region_alloc_pos h2, h3, copiedRrset]

theorem cname_msg_eval (rrset : UbPackedRrsetKey) (q : QueryInfo) (now : Nat)
    {r : Nat} (httl : now ≤ rrset.data.ttl) (h : 7 ≤ r) :
    cname_msg rrset r now q =
      some ({ qinfo := q
              rep := { flags := BIT_QR, qdcount := 1, ttl := rrset.data.ttl - now
                       an_numrrsets := 1, ns_numrrsets := 0, ar_numrrsets := 0
                       rrset_count := 1, rrsets := [copiedRrset rrset now]
                       refs := [] } }, r - 7) := by
  have hn : ¬ now > rrset.data.ttl := by omega
  have h7 : r - 4 - 3 = r - 7 := by omega
  simp only [cname_msg, hn, if_false, gen_dns_msg_eval q 1 (by omega : 4 ≤ r), Option.bind_eq_bind,
    Option.some_bind, copy_rrset_eval rrset now (by omega : 3 ≤ r - 4), h7]

theorem synth_dname_msg_eval (rrset : UbPackedRrsetKey) (q : QueryInfo)
    (dtarg : List Nat) (now : Nat) {r : Nat}
    (httl : now ≤ rrset.data.ttl)
    (htarg : get_cname_target rrset = some dtarg)
    (hlen : q.qname_len + dtarg.length - rrset.rk.dname_len ≤ LDNS_MAX_DOMAINLEN)
    (h : 11 ≤ r) :
    synth_dname_msg rrset r now q = some (synthResult rrset q dtarg now, r - 11) := by
  have hn : ¬ now > rrset.data.ttl := by omega
  have hl : ¬ q.qname_len + dtarg.length - rrset.rk.dname_len > LDNS_MAX_DOMAINLEN := by omega
  have e1 : r - 4 - 3 ≠ 0 := by omega
  have e2 : r - 4 - 3 - 1 ≠ 0 := by omega
  have e3 : r - 4 - 3 - 1 - 1 ≠ 0 := by omega
  have e4 : r - 4 - 3 - 1 - 1 - 1 ≠ 0 := by omega
  have e5 : r - 4 - 3 - 1 - 1 - 1 - 1 = r - 11 := by omega
  simp only [synth_dname_msg, hn, if_false, gen_dns_msg_eval q 2 (by omega : 4 ≤ r),
    Option.bind_eq_bind, Option.some_bind,
    copy_rrset_eval rrset now (by omega : 3 ≤ r - 4), htarg, hl, if_false,
    region_alloc_pos e1, region_alloc_pos e2, region_alloc_pos e3, region_alloc_pos e4,
    Option.some_bind, e5, synthResult, synthCK]

theorem synth_dname_msg_eval_yx (rrset : UbPackedRrsetKey) (q : QueryInfo)
    (dtarg : List Nat) (now : Nat) {r : Nat}
    (httl : now ≤ rrset.data.ttl)
    (htarg : get_cname_target rrset = some dtarg)
    (hlen : q.qname_len + dtarg.length - rrset.rk.dname_len > LDNS_MAX_DOMAINLEN)
    (h : 7 ≤ r) :
    synth_dname_msg rrset r now q = some (synthYxResult rrset q now, r - 7) := by
  have hn : ¬ now > rrset.data.ttl := by omega
  have h7 : r - 4 - 3 = r - 7 := by omega
  simp only [synth_dname_msg, hn, if_false, gen_dns_msg_eval q 2 (by omega : 4 ≤ r),
    Option.bind_eq_bind, Option.some_bind,
    copy_rrset_eval rrset now (by omega : 3 ≤ r - 4), htarg, hlen, if_true, h7,
    synthYxResult]

theorem fct_zero (cache : RrsetCache) (qname : List Nat) (qcl now ty : Nat) :
    find_closest_of_type cache qname 0 qcl now ty = none := by
  rw [find_closest_of_type]
  simp

theorem fct_hit (cache : RrsetCache) (qname : List Nat) {qnamelen : Nat}
    (qcl now ty : Nat) (h : qnamelen ≠ 0) {r : UbPackedRrsetKey}
    (hl : rrset_cache_lookup cache qname qnamelen ty qcl 0 now = some r) :
    find_closest_of_type cache qname qnamelen qcl now ty = some r := by
  rw [find_closest_of_type, hl]
  simp [h]

theorem fct_miss (cache : RrsetCache) (qname : List Nat) {qnamelen : Nat}
    (qcl now ty : Nat) (h : qnamelen ≠ 0)
    (hl : rrset_cache_lookup cache qname qnamelen ty qcl 0 now = none) :
    find_closest_of_type cache qname qnamelen qcl now ty =
      find_closest_of_type cache (qname.drop (qname.headD 0 + 1))
        (qnamelen - (qname.headD 0 + 1)) qcl now ty := by
  rw [find_closest_of_type, hl]
  simp [h]

/-! ## Claim C8: served TTLs never exceed the stored TTLs -/

/-- C8: for every RRset copied into a served message, the `uint32`
subtraction that rebases each per-record TTL to seconds remaining does not
wrap, and each embedded TTL is at most the corresponding stored TTL — given
the invariant that the set-level `ttl` bounds every per-record TTL from
below and that the set is not expired (`now ≤ ttl`, as the source's
`now > ttl` checks enforce on every serve path). -/
theorem copy_rrset_ttl_le (key : UbPackedRrsetKey) (now : Nat) {region : Nat}
    (hmin : ∀ t ∈ key.data.rr_ttl, key.data.ttl ≤ t)
    (hexp : now ≤ key.data.ttl)
    (hb : ∀ t ∈ key.data.rr_ttl, t < 4294967296)
    (hbt : key.data.ttl < 4294967296)
    (hnow : now < 4294967296)
    (hreg : 3 ≤ region) :
    copy_rrset key region now = some (copiedRrset key now, region - 3) ∧
    (copiedRrset key now).data.rr_ttl = key.data.rr_ttl.map (fun t => t - now) ∧
    (copiedRrset key now).data.ttl = key.data.ttl - now ∧
    List.Forall₂ (· ≤ ·) (copiedRrset key now).data.rr_ttl key.data.rr_ttl ∧
    (copiedRrset key now).data.ttl ≤ key.data.ttl := by
  have hmap : key.data.rr_ttl.map (fun t => wsub32 t now) =
      key.data.rr_ttl.map (fun t => t - now) := by
    apply List.map_congr_left
    intro t ht
    have h1 := hmin t ht
    have h2 := hb t ht
    simp only [wsub32]
    omega
  have httl : wsub32 key.data.ttl now = key.data.ttl - now := by
    simp only [wsub32]
    omega
  refine ⟨copy_rrset_eval key now hreg, ?_, ?_, ?_, ?_⟩
  · simp only [copiedRrset, hmap]
  · simp only [copiedRrset, httl]
  · simp only [copiedRrset, hmap]
    rw [List.forall₂_map_left_iff]
    rw [List.forall₂_same]
    intro t _
    omega
  · simp only [copiedRrset, httl]
    omega

/-- C8 witness: a concrete two-record RRset with `ttl = min rr_ttl = 200`
served at `now = 100`. -/
def keyC8 : UbPackedRrsetKey :=
  { rk := { dname := [1, 97, 0], dname_len := 3, type := 1, rrclass := 1, flags := 0 }
    id := 3
    hash := 0
    data := { count := 2, rrsig_count := 0, rr_len := [6, 6]
              rr_data := [[0, 4, 192, 0, 2, 1], [0, 4, 192, 0, 2, 2]]
              rr_ttl := [200, 300], ttl := 200, trust := 8, security := 0 } }

/-- Witness for `copy_rrset_ttl_le` at `keyC8`, `now = 100`, region 5. -/
theorem copy_rrset_ttl_le_witness :
    copy_rrset keyC8 5 100 = some (copiedRrset keyC8 100, 2) ∧
    (copiedRrset keyC8 100).data.rr_ttl = (keyC8.data.rr_ttl).map (fun t => t - 100) ∧
    (copiedRrset keyC8 100).data.ttl = keyC8.data.ttl - 100 ∧
    List.Forall₂ (· ≤ ·) (copiedRrset keyC8 100).data.rr_ttl keyC8.data.rr_ttl ∧
    (copiedRrset keyC8 100).data.ttl ≤ keyC8.data.ttl :=
  copy_rrset_ttl_le keyC8 100 (by decide) (by decide) (by decide) (by decide)
    (by decide) (by decide)

/-! ## Claim C10: appending the synthesized CNAME zeroes the message TTL -/

/-- Shape inversion for `synth_dname_msg`: any returned message either has
its reply `ttl` equal to 0 (the full DNAME+CNAME case) or is the
YXDOMAIN-flagged DNAME-only message with one answer RRset. -/
theorem synth_dname_msg_shape (rrset : UbPackedRrsetKey) (region now : Nat)
    (q : QueryInfo) (msg : DnsMsg) (r' : Nat)
    (h : synth_dname_msg rrset region now q = some (msg, r')) :
    msg.rep.ttl = 0 ∨
      (msg.rep.an_numrrsets = 1 ∧ msg.rep.rrset_count = 1 ∧
       msg.rep.flags = BIT_QR ||| LDNS_RCODE_YXDOMAIN) := by
  unfold synth_dname_msg at h
  by_cases ht : now > rrset.data.ttl
  · rw [if_pos ht] at h
    exact absurd h (by simp)
  · rw [if_neg ht] at h
    simp only [Option.bind_eq_bind, Option.bind_eq_some] at h
    obtain ⟨⟨msg0, r1⟩, hgen, h⟩ := h
    obtain ⟨⟨dcopy, r2⟩, hcopy, h⟩ := h
    cases hg : get_cname_target rrset with
    | none =>
        rw [hg] at h
        exact absurd h (by simp)
    | some dtarg =>
        rw [hg] at h
        dsimp only [] at h
        by_cases hc : q.qname_len + dtarg.length - rrset.rk.dname_len > LDNS_MAX_DOMAINLEN
        · rw [if_pos hc] at h
          simp only [Option.some.injEq, Prod.mk.injEq] at h
          obtain ⟨hmsg, _⟩ := h
          right
          rw [← hmsg]
          exact ⟨rfl, rfl, rfl⟩
        · rw [if_neg hc] at h
          simp only [Option.bind_eq_some] at h
          obtain ⟨r3, h3, h⟩ := h
          obtain ⟨r4, h4, h⟩ := h
          obtain ⟨r5, h5, h⟩ := h
          obtain ⟨r6, h6, h⟩ := h
          simp only [Option.some.injEq, Prod.mk.injEq] at h
          obtain ⟨hmsg, _⟩ := h
          left
          rw [← hmsg]

/-- C10: whenever `synth_dname_msg` appends the synthesized CNAME (i.e. the
returned answer section has two RRsets), the served message's own `ttl`
field was overwritten with the synthesized CNAME's TTL, 0 — so the whole
DNAME+CNAME reply is non-cacheable as a message. -/
theorem synth_dname_msg_ttl_zero (rrset : UbPackedRrsetKey) (region now : Nat)
    (q : QueryInfo) (msg : DnsMsg) (r' : Nat)
    (h : synth_dname_msg rrset region now q = some (msg, r'))
    (han : msg.rep.an_numrrsets = 2) :
    msg.rep.ttl = 0 := by
  rcases synth_dname_msg_shape rrset region now q msg r' h with h0 | ⟨h1, _, _⟩
  · exact h0
  · omega

/-- Concrete DNAME RRset at `a.` with target `b.`, used by several
witnesses: owner `[1,97,0]`, target rdata `[0,3,1,98,0]`. -/
def dnameAtA : UbPackedRrsetKey :=
  { rk := { dname := [1, 97, 0], dname_len := 3, type := 39, rrclass := 1, flags := 0 }
    id := 1
    hash := 0
    data := { count := 1, rrsig_count := 0, rr_len := [5]
              rr_data := [[0, 3, 1, 98, 0]]
              rr_ttl := [200], ttl := 200, trust := 8, security := 0 } }

/-- Query `w.a. A` (wire `[1,119,1,97,0]`). -/
def qWA : QueryInfo := { qname := [1, 119, 1, 97, 0], qname_len := 5, qtype := 1, qcl := 1 }

/-- Witness for `synth_dname_msg_ttl_zero`: the synthesis of `dnameAtA` for
query `qWA` returns a two-answer message whose ttl is 0. -/
theorem synth_dname_msg_ttl_zero_witness :
    (synthResult dnameAtA qWA [1, 98, 0] 100).rep.ttl = 0 :=
  synth_dname_msg_ttl_zero dnameAtA 50 100 qWA
    (synthResult dnameAtA qWA [1, 98, 0] 100) 39
    (synth_dname_msg_eval dnameAtA qWA [1, 98, 0] 100 (by decide) (by decide)
      (by decide) (by decide))
    (by decide)

/-! ## Claim C3: oversized DNAME rewrite yields YXDOMAIN without a CNAME -/

/-- C3: during DNAME synthesis, when the rewritten target name (qname
prefix plus DNAME target) exceeds 255 bytes, the returned message has
`LDNS_RCODE_YXDOMAIN` set in its flags and carries only the copied DNAME
RRset in its answer section, with no synthesized CNAME. -/
theorem synth_dname_msg_yxdomain (rrset : UbPackedRrsetKey) (q : QueryInfo)
    (dtarg : List Nat) (now : Nat) {r : Nat}
    (httl : now ≤ rrset.data.ttl)
    (htarg : get_cname_target rrset = some dtarg)
    (hlen : q.qname_len + dtarg.length - rrset.rk.dname_len > LDNS_MAX_DOMAINLEN)
    (hr : 7 ≤ r) :
    synth_dname_msg rrset r now q = some (synthYxResult rrset q now, r - 7) ∧
    (synthYxResult rrset q now).rep.flags = BIT_QR ||| LDNS_RCODE_YXDOMAIN ∧
    (synthYxResult rrset q now).rep.an_numrrsets = 1 ∧
    (synthYxResult rrset q now).rep.rrset_count = 1 ∧
    (synthYxResult rrset q now).rep.rrsets = [copiedRrset rrset now] :=
  ⟨synth_dname_msg_eval_yx rrset q dtarg now httl htarg hlen hr, rfl, rfl, rfl, rfl⟩

/-- A 197-byte query name: three maximal labels of 63 `a`s under `com.`. -/
def qC3 : QueryInfo :=
  { qname := [63] ++ List.replicate 63 97 ++ [63] ++ List.replicate 63 97 ++
             [63] ++ List.replicate 63 97 ++ [3, 99, 111, 109, 0]
    qname_len := 197, qtype := 1, qcl := 1 }

/-- A 100-byte DNAME target name: a 63-byte label, a 34-byte label, root. -/
def targC3 : List Nat := [63] ++ List.replicate 63 97 ++ [34] ++ List.replicate 34 98 ++ [0]

/-- A cached DNAME at `com.` whose target is the 100-byte `targC3`:
rewriting `qC3` under it would need `197 + 100 - 5 = 292 > 255` bytes. -/
def dnameC3 : UbPackedRrsetKey :=
  { rk := { dname := [3, 99, 111, 109, 0], dname_len := 5, type := 39
            rrclass := 1, flags := 0 }
    id := 2
    hash := 0
    data := { count := 1, rrsig_count := 0, rr_len := [102]
              rr_data := [[0, 100] ++ targC3]
              rr_ttl := [200], ttl := 200, trust := 8, security := 0 } }

/-- Witness for `synth_dname_msg_yxdomain` at `dnameC3`/`qC3`, `now = 100`,
region 20. -/
theorem synth_dname_msg_yxdomain_witness :
    synth_dname_msg dnameC3 20 100 qC3 = some (synthYxResult dnameC3 qC3 100, 13) ∧
    (synthYxResult dnameC3 qC3 100).rep.flags = BIT_QR ||| LDNS_RCODE_YXDOMAIN ∧
    (synthYxResult dnameC3 qC3 100).rep.an_numrrsets = 1 ∧
    (synthYxResult dnameC3 qC3 100).rep.rrset_count = 1 ∧
    (synthYxResult dnameC3 qC3 100).rep.rrsets = [copiedRrset dnameC3 100] :=
  synth_dname_msg_yxdomain dnameC3 qC3 targC3 100 (by decide) (by decide)
    (by decide) (by decide)

/-! ## Claim C1: which TTL comparison makes an entry a miss -/

/-- Concrete cached A RRset for the C1 analysis: absolute expiry 200. -/
def rrC1 : UbPackedRrsetKey :=
  { rk := { dname := [1, 97, 0], dname_len := 3, type := 1, rrclass := 1, flags := 0 }
    id := 7
    hash := 0
    data := { count := 1, rrsig_count := 0, rr_len := [6]
              rr_data := [[0, 4, 192, 0, 2, 1]]
              rr_ttl := [200], ttl := 200, trust := 8, security := 0 } }

/-- Query `a. A IN`. -/
def qiC1 : QueryInfo := { qname := [1, 97, 0], qname_len := 3, qtype := 1, qcl := 1 }

/-- Cached reply for `qiC1` whose message expiry is exactly 100 (callers may
cap the message TTL below the constituent RRset TTLs). -/
def repC1 : ReplyInfo :=
  { flags := 32768, qdcount := 1, ttl := 100
    an_numrrsets := 1, ns_numrrsets := 0, ar_numrrsets := 0, rrset_count := 1
    rrsets := [rrC1], refs := [(rrC1, 7)] }

/-- Environment holding that message. -/
def envC1 : ModuleEnv := { rrset_cache := [rrC1], msg_cache := [(qiC1, repC1)] }

/-- C1 counterexample: at `now = 100` the cached message `repC1` has
`ttl ≤ now` (`ttl = now = 100`), yet `dns_cache_lookup` *serves* it — the
source checks `now > ttl`, not `ttl ≤ now`, so an entry whose expiry equals
`now` is not treated as a miss.  This refutes the claim as stated. -/
theorem dns_cache_lookup_serves_at_expiry :
    repC1.ttl ≤ 100 ∧ (dns_cache_lookup envC1 [1, 97, 0] 3 1 1 50 100).isSome = true := by
  decide

/-- C1 (amended): an entry whose expiry timestamp is *strictly* in the past
(`ttl < now`) is refused by each of the three serve paths — the message-hit
promotion `tomsg`, the CNAME path `cname_msg`, and the DNAME synthesis
`synth_dname_msg` all return `none`, so `dns_cache_lookup` falls through to
its next step. -/
theorem expired_entry_is_miss (e : QueryInfo) (r : ReplyInfo) (region now : Nat)
    (q : QueryInfo) (rrset : UbPackedRrsetKey) :
    (r.ttl < now → tomsg e r region now = none) ∧
    (rrset.data.ttl < now → cname_msg rrset region now q = none) ∧
    (rrset.data.ttl < now → synth_dname_msg rrset region now q = none) := by
  refine ⟨fun h => ?_, fun h => ?_, fun h => ?_⟩
  · unfold tomsg
    rw [if_pos (by omega : now > r.ttl)]
  · unfold cname_msg
    rw [if_pos (by omega : now > rrset.data.ttl)]
  · unfold synth_dname_msg
    rw [if_pos (by omega : now > rrset.data.ttl)]

/-- Witness for `expired_entry_is_miss` at `now = 300`, past both the
message expiry 100 and the RRset expiry 200. -/
theorem expired_entry_is_miss_witness :
    tomsg qiC1 repC1 10 300 = none ∧
    cname_msg rrC1 10 300 qiC1 = none ∧
    synth_dname_msg rrC1 10 300 qiC1 = none :=
  ⟨(expired_entry_is_miss qiC1 repC1 10 300 qiC1 rrC1).1 (by decide),
   (expired_entry_is_miss qiC1 repC1 10 300 qiC1 rrC1).2.1 (by decide),
   (expired_entry_is_miss qiC1 repC1 10 300 qiC1 rrC1).2.2 (by decide)⟩

/-! ## Claim C2: DNAME preferred over CNAME; shape of the synthesized reply -/

/-- C2: on a message-cache miss, with a DNAME found by the ancestor walk
(`find_closest_of_type`, which tries `qname` and each ancestor in turn),
`dns_cache_lookup` returns the synthesized message — whatever CNAME may be
cached at `qname` (the conclusion holds for *every* environment satisfying
the hypotheses, so the DNAME strictly wins over the later CNAME step).  The
answer section is the copied DNAME followed by a synthesized CNAME whose
owner is the original qname, whose target is the qname prefix (qname minus
the DNAME owner suffix) concatenated with the DNAME target, whose TTL is 0
and whose trust is `ans_noAA` (answer-without-AA). -/
theorem dns_cache_lookup_dname_synth (env : ModuleEnv) (qname : List Nat)
    (qnamelen qtype qcl region now : Nat) (drr : UbPackedRrsetKey)
    (dtarg : List Nat)
    (hmiss : msgcache_lookup env.msg_cache ⟨qname, qnamelen, qtype, qcl⟩ = none)
    (hdname : find_closest_of_type env.rrset_cache qname qnamelen qcl now
                LDNS_RR_TYPE_DNAME = some drr)
    (httl : now ≤ drr.data.ttl)
    (htarg : get_cname_target drr = some dtarg)
    (hlen : qnamelen + dtarg.length - drr.rk.dname_len ≤ LDNS_MAX_DOMAINLEN)
    (hreg : 11 ≤ region) :
    dns_cache_lookup env qname qnamelen qtype qcl region now =
      some (synthResult drr ⟨qname, qnamelen, qtype, qcl⟩ dtarg now) ∧
    (synthResult drr ⟨qname, qnamelen, qtype, qcl⟩ dtarg now).rep.rrsets =
      [copiedRrset drr now, synthCK drr ⟨qname, qnamelen, qtype, qcl⟩ dtarg] ∧
    (synthCK drr ⟨qname, qnamelen, qtype, qcl⟩ dtarg).rk.dname = qname ∧
    (synthCK drr ⟨qname, qnamelen, qtype, qcl⟩ dtarg).rk.type = LDNS_RR_TYPE_CNAME ∧
    (synthCK drr ⟨qname, qnamelen, qtype, qcl⟩ dtarg).data.rr_data =
      [write_uint16 (qnamelen + dtarg.length - drr.rk.dname_len) ++
        (qname.take (qnamelen - drr.rk.dname_len) ++ dtarg)] ∧
    (synthCK drr ⟨qname, qnamelen, qtype, qcl⟩ dtarg).data.ttl = 0 ∧
    (synthCK drr ⟨qname, qnamelen, qtype, qcl⟩ dtarg).data.trust = rrset_trust_ans_noAA := by
  refine ⟨?_, rfl, rfl, rfl, rfl, rfl, rfl⟩
  simp only [dns_cache_lookup, hmiss, hdname,
    synth_dname_msg_eval drr ⟨qname, qnamelen, qtype, qcl⟩ dtarg now httl htarg hlen hreg]

/-- A CNAME RRset cached at `w.a.` (same owner as `qWA`), used to show the
DNAME wins over it. -/
def cnameAtWA : UbPackedRrsetKey :=
  { rk := { dname := [1, 119, 1, 97, 0], dname_len := 5, type := 5, rrclass := 1, flags := 0 }
    id := 4
    hash := 0
    data := { count := 1, rrsig_count := 0, rr_len := [5]
              rr_data := [[0, 3, 1, 122, 0]]
              rr_ttl := [400], ttl := 400, trust := 8, security := 0 } }

/-- Environment with a DNAME at `a.` *and* a CNAME at `w.a.`. -/
def envC2 : ModuleEnv := { rrset_cache := [cnameAtWA, dnameAtA], msg_cache := [] }

/-- Witness for `dns_cache_lookup_dname_synth`: looking up `w.a. A` in
`envC2` serves the DNAME at `a.` plus the synthesized CNAME
`w.a. → w.b.` (bytes `[1,119,1,98,0]`), not the cached CNAME. -/
theorem dns_cache_lookup_dname_synth_witness :
    dns_cache_lookup envC2 [1, 119, 1, 97, 0] 5 1 1 50 100 =
      some (synthResult dnameAtA ⟨[1, 119, 1, 97, 0], 5, 1, 1⟩ [1, 98, 0] 100) ∧
    (synthResult dnameAtA ⟨[1, 119, 1, 97, 0], 5, 1, 1⟩ [1, 98, 0] 100).rep.rrsets =
      [copiedRrset dnameAtA 100, synthCK dnameAtA ⟨[1, 119, 1, 97, 0], 5, 1, 1⟩ [1, 98, 0]] ∧
    (synthCK dnameAtA ⟨[1, 119, 1, 97, 0], 5, 1, 1⟩ [1, 98, 0]).rk.dname = [1, 119, 1, 97, 0] ∧
    (synthCK dnameAtA ⟨[1, 119, 1, 97, 0], 5, 1, 1⟩ [1, 98, 0]).rk.type = LDNS_RR_TYPE_CNAME ∧
    (synthCK dnameAtA ⟨[1, 119, 1, 97, 0], 5, 1, 1⟩ [1, 98, 0]).data.rr_data =
      [write_uint16 (5 + [1, 98, 0].length - dnameAtA.rk.dname_len) ++
        ([1, 119, 1, 97, 0].take (5 - dnameAtA.rk.dname_len) ++ [1, 98, 0])] ∧
    (synthCK dnameAtA ⟨[1, 119, 1, 97, 0], 5, 1, 1⟩ [1, 98, 0]).data.ttl = 0 ∧
    (synthCK dnameAtA ⟨[1, 119, 1, 97, 0], 5, 1, 1⟩ [1, 98, 0]).data.trust = rrset_trust_ans_noAA :=
  dns_cache_lookup_dname_synth envC2 [1, 119, 1, 97, 0] 5 1 1 50 100 dnameAtA [1, 98, 0]
    (by decide)
    (by
      rw [fct_miss envC2.rrset_cache [1, 119, 1, 97, 0] 1 100 LDNS_RR_TYPE_DNAME
            (by decide) (by decide)]
      exact fct_hit envC2.rrset_cache [1, 97, 0] 1 100 LDNS_RR_TYPE_DNAME
        (by decide) (by decide))
    (by decide) (by decide) (by decide) (by decide)

/-! ## Claim C4: qtype == DNAME with the DNAME at qname itself -/

/-- Embeds `dname_valid` never exceeds 255. -/
theorem dname_valid_le (l : List Nat) : dname_valid l ≤ 255 := by
  unfold dname_valid LDNS_MAX_DOMAINLEN
  split
  · split <;> omega
  · omega

/-- The target `get_cname_target` extracts is at most 255 bytes (it passed
`dname_valid`). -/
theorem get_cname_target_length_le (rrset : UbPackedRrsetKey) (dtarg : List Nat)
    (h : get_cname_target rrset = some dtarg) : dtarg.length ≤ 255 := by
  unfold get_cname_target at h
  dsimp only [] at h
  split at h
  · exact absurd h (by simp)
  split at h
  · exact absurd h (by simp)
  split at h
  · exact absurd h (by simp)
  split at h
  · exact absurd h (by simp)
  split at h
  · exact absurd h (by simp)
  rename_i hv
  simp only [Option.some.injEq] at h
  have hvle := dname_valid_le
    (((rrset.data.rr_data.getD 0 []).drop 2).take (read_uint16 (rrset.data.rr_data.getD 0 [])))
  rw [not_ne_iff] at hv
  have hl := List.length_take
    (read_uint16 (rrset.data.rr_data.getD 0 []))
    ((rrset.data.rr_data.getD 0 []).drop 2)
  rw [← h]
  omega

/-- Environment for the C4 counterexample: only the DNAME at `a.`. -/
def envC4 : ModuleEnv := { rrset_cache := [dnameAtA], msg_cache := [] }

/-- C4 counterexample: querying `a. DNAME IN` (qtype 39) with the DNAME
cached at `a.` itself does *not* degenerate to a DNAME-only message — the
code appends a synthesized CNAME unconditionally, so the served answer
section has two RRsets and the second one is a CNAME. -/
theorem dns_cache_lookup_qtype_dname_appends_cname :
    (dns_cache_lookup envC4 [1, 97, 0] 3 39 1 50 100).map (fun m => m.rep.an_numrrsets) =
      some 2 ∧
    (dns_cache_lookup envC4 [1, 97, 0] 3 39 1 50 100).map
        (fun m => (m.rep.rrsets.getD 1 dnameAtA).rk.type) = some LDNS_RR_TYPE_CNAME := by
  have hfct : find_closest_of_type envC4.rrset_cache [1, 97, 0] 3 1 100
      LDNS_RR_TYPE_DNAME = some dnameAtA :=
    fct_hit envC4.rrset_cache [1, 97, 0] 1 100 LDNS_RR_TYPE_DNAME (by decide) (by decide)
  have hlook : dns_cache_lookup envC4 [1, 97, 0] 3 39 1 50 100 =
      some (synthResult dnameAtA ⟨[1, 97, 0], 3, 39, 1⟩ [1, 98, 0] 100) := by
    simp only [dns_cache_lookup, show msgcache_lookup envC4.msg_cache ⟨[1, 97, 0], 3, 39, 1⟩
        = none from by decide, hfct,
      synth_dname_msg_eval dnameAtA ⟨[1, 97, 0], 3, 39, 1⟩ [1, 98, 0] 100 (by decide)
        (by decide) (by decide) (show (11 : Nat) ≤ 50 by decide)]
  rw [hlook]
  decide

/-- C4 (amended): when `qtype = DNAME` and a DNAME RRset is cached at
`qname` itself, `dns_cache_lookup` still performs DNAME synthesis, but the
result is not DNAME-only: the answer holds the copied DNAME *plus* a
synthesized CNAME whose owner is `qname` and whose target is exactly the
DNAME target (the qname prefix is empty), with TTL 0. -/
theorem dns_cache_lookup_qtype_dname_synth (env : ModuleEnv) (qname : List Nat)
    (qnamelen qcl region now : Nat) (drr : UbPackedRrsetKey) (dtarg : List Nat)
    (hmiss : msgcache_lookup env.msg_cache ⟨qname, qnamelen, LDNS_RR_TYPE_DNAME, qcl⟩ = none)
    (hq : qnamelen ≠ 0)
    (hself : rrset_cache_lookup env.rrset_cache qname qnamelen LDNS_RR_TYPE_DNAME
               qcl 0 now = some drr)
    (hat : drr.rk.dname_len = qnamelen)
    (httl : now ≤ drr.data.ttl)
    (htarg : get_cname_target drr = some dtarg)
    (hreg : 11 ≤ region) :
    dns_cache_lookup env qname qnamelen LDNS_RR_TYPE_DNAME qcl region now =
      some (synthResult drr ⟨qname, qnamelen, LDNS_RR_TYPE_DNAME, qcl⟩ dtarg now) ∧
    (synthResult drr ⟨qname, qnamelen, LDNS_RR_TYPE_DNAME, qcl⟩ dtarg now).rep.an_numrrsets = 2 ∧
    (synthCK drr ⟨qname, qnamelen, LDNS_RR_TYPE_DNAME, qcl⟩ dtarg).rk.dname = qname ∧
    (synthCK drr ⟨qname, qnamelen, LDNS_RR_TYPE_DNAME, qcl⟩ dtarg).data.rr_data =
      [write_uint16 dtarg.length ++ dtarg] ∧
    (synthCK drr ⟨qname, qnamelen, LDNS_RR_TYPE_DNAME, qcl⟩ dtarg).data.ttl = 0 := by
  have hlen : qnamelen + dtarg.length - drr.rk.dname_len ≤ LDNS_MAX_DOMAINLEN := by
    have := get_cname_target_length_le drr dtarg htarg
    unfold LDNS_MAX_DOMAINLEN
    omega
  have hfct : find_closest_of_type env.rrset_cache qname qnamelen qcl now
      LDNS_RR_TYPE_DNAME = some drr := fct_hit env.rrset_cache qname qcl now
      LDNS_RR_TYPE_DNAME hq hself
  refine ⟨?_, rfl, rfl, ?_, rfl⟩
  · simp only [dns_cache_lookup, hmiss, hfct,
      synth_dname_msg_eval drr ⟨qname, qnamelen, LDNS_RR_TYPE_DNAME, qcl⟩ dtarg now
        httl htarg hlen hreg]
  · simp only [synthCK, hat]
    have h1 : qnamelen + dtarg.length - qnamelen = dtarg.length := by omega
    have h2 : qnamelen - qnamelen = 0 := by omega
    rw [h1, h2, List.take_zero, List.nil_append]

/-- Witness for `dns_cache_lookup_qtype_dname_synth` on `envC4` at
`a. DNAME IN`. -/
theorem dns_cache_lookup_qtype_dname_synth_witness :
    dns_cache_lookup envC4 [1, 97, 0] 3 39 1 50 100 =
      some (synthResult dnameAtA ⟨[1, 97, 0], 3, 39, 1⟩ [1, 98, 0] 100) ∧
    (synthResult dnameAtA ⟨[1, 97, 0], 3, 39, 1⟩ [1, 98, 0] 100).rep.an_numrrsets = 2 ∧
    (synthCK dnameAtA ⟨[1, 97, 0], 3, 39, 1⟩ [1, 98, 0]).rk.dname = [1, 97, 0] ∧
    (synthCK dnameAtA ⟨[1, 97, 0], 3, 39, 1⟩ [1, 98, 0]).data.rr_data =
      [write_uint16 ([1, 98, 0] : List Nat).length ++ [1, 98, 0]] ∧
    (synthCK dnameAtA ⟨[1, 97, 0], 3, 39, 1⟩ [1, 98, 0]).data.ttl = 0 :=
  dns_cache_lookup_qtype_dname_synth envC4 [1, 97, 0] 3 1 50 100 dnameAtA [1, 98, 0]
    (by decide) (by decide) (by decide) (by decide) (by decide) (by decide) (by decide)

/-! ## Claim C9: ub_rrset_compare is a total order -/

theorem qdc_values (a : List Nat) : ∀ b, query_dname_compare a b = -1 ∨
    query_dname_compare a b = 0 ∨ query_dname_compare a b = 1 := by
  induction a with
  | nil => intro b; cases b <;> simp [query_dname_compare]
  | cons x xs ih =>
      intro b
      cases b with
      | nil => simp [query_dname_compare]
      | cons y ys =>
          simp only [query_dname_compare]
          split_ifs <;> simp [ih]

theorem qdc_eq_zero_iff (a : List Nat) : ∀ b,
    query_dname_compare a b = 0 ↔ dnameLower a = dnameLower b := by
  induction a with
  | nil => intro b; cases b <;> simp [query_dname_compare, dnameLower]
  | cons x xs ih =>
      intro b
      cases b with
      | nil => simp [query_dname_compare, dnameLower]
      | cons y ys =>
          simp only [query_dname_compare, dnameLower, List.map_cons, List.cons.injEq]
          split_ifs with h1 h2
          · constructor
            · intro hh; exact absurd hh (by decide)
            · rintro ⟨he, _⟩; omega
          · constructor
            · intro hh; exact absurd hh (by decide)
            · rintro ⟨he, _⟩; omega
          · have hxy : lowerByte x = lowerByte y := by omega
            rw [show (query_dname_compare xs ys = 0) ↔ (dnameLower xs = dnameLower ys) from ih ys]
            simp [dnameLower, hxy]

theorem qdc_antisymm (a : List Nat) : ∀ b,
    query_dname_compare a b = -(query_dname_compare b a) := by
  induction a with
  | nil => intro b; cases b <;> simp [query_dname_compare]
  | cons x xs ih =>
      intro b
      cases b with
      | nil => simp [query_dname_compare]
      | cons y ys =>
          simp only [query_dname_compare]
          split_ifs <;> first | exact ih ys | omega

theorem qdc_neg_trans (a : List Nat) : ∀ b c,
    query_dname_compare a b = -1 → query_dname_compare b c = -1 →
    query_dname_compare a c = -1 := by
  induction a with
  | nil =>
      intro b c hab hbc
      cases b with
      | nil => exact absurd hab (by simp [query_dname_compare])
      | cons y ys =>
          cases c with
          | nil => exact absurd hbc (by simp [query_dname_compare])
          | cons z zs => simp [query_dname_compare]
  | cons x xs ih =>
      intro b c hab hbc
      cases b with
      | nil => exact absurd hab (by simp [query_dname_compare])
      | cons y ys =>
          cases c with
          | nil => exact absurd hbc (by simp [query_dname_compare])
          | cons z zs =>
              simp only [query_dname_compare] at hab hbc ⊢
              split_ifs at hab with h1 h2 <;> split_ifs at hbc with h3 h4 <;>
                split_ifs with h5 h6 <;>
                first | rfl | omega | exact ih ys zs hab hbc

theorem qdc_congr_left (a : List Nat) : ∀ a' b, dnameLower a = dnameLower a' →
    query_dname_compare a b = query_dname_compare a' b := by
  induction a with
  | nil =>
      intro a' b he
      cases a' with
      | nil => rfl
      | cons _ _ => exact absurd he (by simp [dnameLower])
  | cons x xs ih =>
      intro a' b he
      cases a' with
      | nil => exact absurd he (by simp [dnameLower])
      | cons x' xs' =>
          simp only [dnameLower, List.map_cons, List.cons.injEq] at he
          obtain ⟨hx, hxs⟩ := he
          cases b with
          | nil => rfl
          | cons y ys =>
              simp only [query_dname_compare, hx]
              split_ifs <;> first | rfl | exact ih xs' ys hxs

theorem qdc_zero_trans (a b c : List Nat)
    (hab : query_dname_compare a b = 0) (hbc : query_dname_compare b c = 0) :
    query_dname_compare a c = 0 := by
  rw [qdc_eq_zero_iff] at hab hbc ⊢
  rw [hab, hbc]

theorem qdc_zero_neg_trans (a b c : List Nat)
    (hab : query_dname_compare a b = 0) (hbc : query_dname_compare b c = -1) :
    query_dname_compare a c = -1 := by
  rw [qdc_eq_zero_iff] at hab
  rw [qdc_congr_left a b c hab]
  exact hbc

theorem qdc_neg_zero_trans (a b c : List Nat)
    (hab : query_dname_compare a b = -1) (hbc : query_dname_compare b c = 0) :
    query_dname_compare a c = -1 := by
  rw [qdc_eq_zero_iff] at hbc
  have h1 := qdc_antisymm c a
  have h2 := qdc_antisymm b a
  have h3 := qdc_congr_left c b a hbc.symm
  omega

theorem ub_rrset_compare_values (k1 k2 : PackedRrsetKey) :
    ub_rrset_compare k1 k2 = -1 ∨ ub_rrset_compare k1 k2 = 0 ∨
    ub_rrset_compare k1 k2 = 1 := by
  simp only [ub_rrset_compare]
  have hv := qdc_values k1.dname k2.dname
  split_ifs <;> first | exact hv | simp

theorem ub_rrset_compare_zero_iff (k1 k2 : PackedRrsetKey) :
    ub_rrset_compare k1 k2 = 0 ↔
      (k1.type = k2.type ∧ k1.dname_len = k2.dname_len ∧
       dnameLower k1.dname = dnameLower k2.dname ∧
       k1.rrclass = k2.rrclass ∧ k1.flags = k2.flags) := by
  simp only [ub_rrset_compare]
  by_cases h1 : k1.type = k2.type
  · rw [if_neg (not_ne_iff.mpr h1)]
    by_cases h2 : k1.dname_len = k2.dname_len
    · rw [if_neg (not_ne_iff.mpr h2)]
      by_cases h3 : query_dname_compare k1.dname k2.dname = 0
      · rw [if_neg (not_ne_iff.mpr h3)]
        by_cases h4 : k1.rrclass = k2.rrclass
        · rw [if_neg (not_ne_iff.mpr h4)]
          by_cases h5 : k1.flags = k2.flags
          · rw [if_neg (not_ne_iff.mpr h5)]
            simp [h1, h2, h4, h5, (qdc_eq_zero_iff k1.dname k2.dname).mp h3]
          · rw [if_pos h5]
            exact iff_of_false (by split_ifs <;> decide)
              (fun hh => h5 hh.2.2.2.2)
        · rw [if_pos h4]
          exact iff_of_false (by split_ifs <;> decide)
            (fun hh => h4 hh.2.2.2.1)
      · rw [if_pos h3]
        exact iff_of_false h3
          (fun hh => h3 ((qdc_eq_zero_iff k1.dname k2.dname).mpr hh.2.2.1))
    · rw [if_pos h2]
      exact iff_of_false (by split_ifs <;> decide) (fun hh => h2 hh.2.1)
  · rw [if_pos h1]
    exact iff_of_false (by split_ifs <;> decide) (fun hh => h1 hh.1)

theorem ub_rrset_compare_antisymm (k1 k2 : PackedRrsetKey) :
    ub_rrset_compare k1 k2 = -(ub_rrset_compare k2 k1) := by
  simp only [ub_rrset_compare]
  have hs : query_dname_compare k2.dname k1.dname =
      -(query_dname_compare k1.dname k2.dname) := qdc_antisymm k2.dname k1.dname
  by_cases h1 : k1.type = k2.type
  · rw [if_neg (not_ne_iff.mpr h1), if_neg (not_ne_iff.mpr h1.symm)]
    by_cases h2 : k1.dname_len = k2.dname_len
    · rw [if_neg (not_ne_iff.mpr h2), if_neg (not_ne_iff.mpr h2.symm)]
      by_cases h3 : query_dname_compare k1.dname k2.dname = 0
      · rw [if_neg (not_ne_iff.mpr h3),
          if_neg (not_ne_iff.mpr (by omega : query_dname_compare k2.dname k1.dname = 0))]
        by_cases h4 : k1.rrclass = k2.rrclass
        · rw [if_neg (not_ne_iff.mpr h4), if_neg (not_ne_iff.mpr h4.symm)]
          by_cases h5 : k1.flags = k2.flags
          · rw [if_neg (not_ne_iff.mpr h5), if_neg (not_ne_iff.mpr h5.symm)]
            decide
          · rw [if_pos h5, if_pos (fun hh => h5 hh.symm)]
            split_ifs <;> omega
        · rw [if_pos h4, if_pos (fun hh => h4 hh.symm)]
          split_ifs <;> omega
      · rw [if_pos h3, if_pos (show query_dname_compare k2.dname k1.dname ≠ 0 by omega)]
        omega
    · rw [if_pos h2, if_pos (fun hh => h2 hh.symm)]
      split_ifs <;> omega
  · rw [if_pos h1, if_pos (fun hh => h1 hh.symm)]
    split_ifs <;> omega

/-- Inversion: `ub_rrset_compare k1 k2 = -1` means `k1` is lexicographically
below `k2` at some level of the (type, dname_len, dname, class, flags)
chain. -/
theorem ub_rrset_compare_neg_inv (k1 k2 : PackedRrsetKey)
    (h : ub_rrset_compare k1 k2 = -1) :
    k1.type < k2.type ∨
    (k1.type = k2.type ∧ k1.dname_len < k2.dname_len) ∨
    (k1.type = k2.type ∧ k1.dname_len = k2.dname_len ∧
      query_dname_compare k1.dname k2.dname = -1) ∨
    (k1.type = k2.type ∧ k1.dname_len = k2.dname_len ∧
      query_dname_compare k1.dname k2.dname = 0 ∧ k1.rrclass < k2.rrclass) ∨
    (k1.type = k2.type ∧ k1.dname_len = k2.dname_len ∧
      query_dname_compare k1.dname k2.dname = 0 ∧ k1.rrclass = k2.rrclass ∧
      k1.flags < k2.flags) := by
  simp only [ub_rrset_compare] at h
  by_cases h1 : k1.type = k2.type
  · rw [if_neg (not_ne_iff.mpr h1)] at h
    by_cases h2 : k1.dname_len = k2.dname_len
    · rw [if_neg (not_ne_iff.mpr h2)] at h
      by_cases h3 : query_dname_compare k1.dname k2.dname = 0
      · rw [if_neg (not_ne_iff.mpr h3)] at h
        by_cases h4 : k1.rrclass = k2.rrclass
        · rw [if_neg (not_ne_iff.mpr h4)] at h
          by_cases h5 : k1.flags = k2.flags
          · rw [if_neg (not_ne_iff.mpr h5)] at h
            exact absurd h (by decide)
          · rw [if_pos h5] at h
            split_ifs at h with h6
            exact Or.inr (Or.inr (Or.inr (Or.inr ⟨h1, h2, h3, h4, h6⟩)))
        · rw [if_pos h4] at h
          split_ifs at h with h6
          exact Or.inr (Or.inr (Or.inr (Or.inl ⟨h1, h2, h3, h6⟩)))
      · rw [if_pos h3] at h
        exact Or.inr (Or.inr (Or.inl ⟨h1, h2, h⟩))
    · rw [if_pos h2] at h
      split_ifs at h with h6
      exact Or.inr (Or.inl ⟨h1, h6⟩)
  · rw [if_pos h1] at h
    split_ifs at h with h6
    exact Or.inl h6

/-- Converse of `ub_rrset_compare_neg_inv`. -/
theorem ub_rrset_compare_of_lex (k1 k2 : PackedRrsetKey)
    (h : k1.type < k2.type ∨
      (k1.type = k2.type ∧ k1.dname_len < k2.dname_len) ∨
      (k1.type = k2.type ∧ k1.dname_len = k2.dname_len ∧
        query_dname_compare k1.dname k2.dname = -1) ∨
      (k1.type = k2.type ∧ k1.dname_len = k2.dname_len ∧
        query_dname_compare k1.dname k2.dname = 0 ∧ k1.rrclass < k2.rrclass) ∨
      (k1.type = k2.type ∧ k1.dname_len = k2.dname_len ∧
        query_dname_compare k1.dname k2.dname = 0 ∧ k1.rrclass = k2.rrclass ∧
        k1.flags < k2.flags)) :
    ub_rrset_compare k1 k2 = -1 := by
  simp only [ub_rrset_compare]
  rcases h with h | ⟨e1, h⟩ | ⟨e1, e2, h⟩ | ⟨e1, e2, e3, h⟩ | ⟨e1, e2, e3, e4, h⟩
  · rw [if_pos (by omega : k1.type ≠ k2.type), if_pos h]
  · rw [if_neg (not_ne_iff.mpr e1), if_pos (by omega : k1.dname_len ≠ k2.dname_len),
      if_pos h]
  · rw [if_neg (not_ne_iff.mpr e1), if_neg (not_ne_iff.mpr e2),
      if_pos (show query_dname_compare k1.dname k2.dname ≠ 0 by omega)]
    exact h
  · rw [if_neg (not_ne_iff.mpr e1), if_neg (not_ne_iff.mpr e2),
      if_neg (not_ne_iff.mpr e3), if_pos (by omega : k1.rrclass ≠ k2.rrclass),
      if_pos h]
  · rw [if_neg (not_ne_iff.mpr e1), if_neg (not_ne_iff.mpr e2),
      if_neg (not_ne_iff.mpr e3), if_neg (not_ne_iff.mpr e4),
      if_pos (by omega : k1.flags ≠ k2.flags), if_pos h]

theorem ub_rrset_compare_neg_trans (k1 k2 k3 : PackedRrsetKey)
    (h12 : ub_rrset_compare k1 k2 = -1) (h23 : ub_rrset_compare k2 k3 = -1) :
    ub_rrset_compare k1 k3 = -1 := by
  apply ub_rrset_compare_of_lex
  rcases ub_rrset_compare_neg_inv k1 k2 h12 with
    h | ⟨e1, h⟩ | ⟨e1, e2, h⟩ | ⟨e1, e2, e3, h⟩ | ⟨e1, e2, e3, e4, h⟩ <;>
  rcases ub_rrset_compare_neg_inv k2 k3 h23 with
    g | ⟨f1, g⟩ | ⟨f1, f2, g⟩ | ⟨f1, f2, f3, g⟩ | ⟨f1, f2, f3, f4, g⟩ <;>
  first
  | exact Or.inl (by omega)
  | exact Or.inr (Or.inl ⟨by omega, by omega⟩)
  | exact Or.inr (Or.inr (Or.inl ⟨by omega, by omega,
      qdc_neg_trans k1.dname k2.dname k3.dname h g⟩))
  | exact Or.inr (Or.inr (Or.inl ⟨by omega, by omega,
      qdc_neg_zero_trans k1.dname k2.dname k3.dname h f3⟩))
  | exact Or.inr (Or.inr (Or.inl ⟨by omega, by omega,
      qdc_zero_neg_trans k1.dname k2.dname k3.dname e3 g⟩))
  | exact Or.inr (Or.inr (Or.inr (Or.inl ⟨by omega, by omega,
      qdc_zero_trans k1.dname k2.dname k3.dname e3 f3, by omega⟩)))
  | exact Or.inr (Or.inr (Or.inr (Or.inr ⟨by omega, by omega,
      qdc_zero_trans k1.dname k2.dname k3.dname e3 f3, by omega, by omega⟩)))

/-- C9: `ub_rrset_compare` is a total order on RRset keys — its value is
always one of −1, 0, 1; it returns 0 exactly when the two keys agree on all
four key fields (type, owner name — compared canonically, i.e.
case-insensitively, together with its stored length — class, and flags); it
is antisymmetric (`cmp k1 k2 = −cmp k2 k1`); and the strict order it
induces (comparing by type, then dname length, then canonical dname, then
class, then flags, each ascending) is transitive. -/
theorem ub_rrset_compare_total_order (k1 k2 k3 : PackedRrsetKey) :
    (ub_rrset_compare k1 k2 = -1 ∨ ub_rrset_compare k1 k2 = 0 ∨
     ub_rrset_compare k1 k2 = 1) ∧
    (ub_rrset_compare k1 k2 = 0 ↔
      (k1.type = k2.type ∧ k1.dname_len = k2.dname_len ∧
       dnameLower k1.dname = dnameLower k2.dname ∧
       k1.rrclass = k2.rrclass ∧ k1.flags = k2.flags)) ∧
    ub_rrset_compare k1 k2 = -(ub_rrset_compare k2 k1) ∧
    (ub_rrset_compare k1 k2 = -1 → ub_rrset_compare k2 k3 = -1 →
      ub_rrset_compare k1 k3 = -1) :=
  ⟨ub_rrset_compare_values k1 k2, ub_rrset_compare_zero_iff k1 k2,
   ub_rrset_compare_antisymm k1 k2, ub_rrset_compare_neg_trans k1 k2 k3⟩

/-- Witness for the transitivity component of `ub_rrset_compare_total_order`
at three concrete keys ordered by type. -/
theorem ub_rrset_compare_total_order_witness :
    ub_rrset_compare rrC1.rk cnameAtWA.rk = -1 ∧
    ub_rrset_compare cnameAtWA.rk dnameC3.rk = -1 ∧
    ub_rrset_compare rrC1.rk dnameC3.rk = -1 :=
  ⟨by decide, by decide,
   (ub_rrset_compare_total_order rrC1.rk cnameAtWA.rk dnameC3.rk).2.2.2
     (by decide) (by decide)⟩

/-! ## Claim C5: zero-TTL messages are dropped but their RRsets are stored -/

theorem sameKey_refl (a : PackedRrsetKey) : sameKey a a = true := by
  simp [sameKey]

theorem update_go_nil (fresh : Nat) (r : UbPackedRrsetKey) :
    rrset_cache_update_go fresh r [] = ([{ r with id := fresh }], { r with id := fresh }, false) :=
  rfl

theorem update_go_cons_miss (fresh : Nat) (r a : UbPackedRrsetKey)
    (rest : RrsetCache) (hs : ¬ sameKey a.rk r.rk = true) :
    rrset_cache_update_go fresh r (a :: rest) =
      (a :: (rrset_cache_update_go fresh r rest).1,
       (rrset_cache_update_go fresh r rest).2.1,
       (rrset_cache_update_go fresh r rest).2.2) := by
  simp [rrset_cache_update_go, hs]

theorem update_go_cons_hit_rk (fresh : Nat) (r a : UbPackedRrsetKey)
    (rest : RrsetCache) (hs : sameKey a.rk r.rk = true) :
    ∃ a' : UbPackedRrsetKey, a'.rk = a.rk ∧
      (rrset_cache_update_go fresh r (a :: rest)).1 = a' :: rest := by
  by_cases ht : r.data.trust < a.data.trust
  · exact ⟨a, rfl, by simp [rrset_cache_update_go, hs, ht]⟩
  · by_cases he : rrsetdata_equal a.data r.data = true
    · refine ⟨{ a with data :=
        { a.data with
          ttl := max a.data.ttl r.data.ttl
          rr_ttl := List.zipWith max a.data.rr_ttl r.data.rr_ttl } }, rfl, ?_⟩
      simp [rrset_cache_update_go, hs, ht, he]
    · exact ⟨{ a with data := r.data, id := fresh }, rfl,
        by simp [rrset_cache_update_go, hs, ht, he]⟩

/-- After `rrset_cache_update_go`, the store contains an entry with the
inserted key, and every previously present key is still present. -/
theorem rrset_cache_update_go_mem (fresh : Nat) (r : UbPackedRrsetKey) :
    ∀ cache : RrsetCache,
      (∃ e ∈ (rrset_cache_update_go fresh r cache).1, sameKey e.rk r.rk = true) ∧
      (∀ e ∈ cache, ∃ e' ∈ (rrset_cache_update_go fresh r cache).1, e'.rk = e.rk) := by
  intro cache
  induction cache with
  | nil =>
      constructor
      · refine ⟨{ r with id := fresh }, ?_, sameKey_refl _⟩
        rw [update_go_nil]
        simp
      · intro e he
        exact absurd he (List.not_mem_nil e)
  | cons a rest ih =>
      by_cases hs : sameKey a.rk r.rk = true
      · obtain ⟨a', hrk, hres⟩ := update_go_cons_hit_rk fresh r a rest hs
        constructor
        · refine ⟨a', ?_, by rw [hrk]; exact hs⟩
          rw [hres]
          simp
        · intro e he
          rcases List.mem_cons.mp he with rfl | hmem
          · exact ⟨a', by rw [hres]; simp, hrk⟩
          · exact ⟨e, by rw [hres]; simp [hmem], rfl⟩
      · rw [update_go_cons_miss fresh r a rest hs]
        constructor
        · obtain ⟨e, hmem, hsk⟩ := ih.1
          exact ⟨e, List.mem_cons_of_mem a hmem, hsk⟩
        · intro e he
          rcases List.mem_cons.mp he with rfl | hmem
          · exact ⟨e, List.mem_cons_self e _, rfl⟩
          · obtain ⟨e', hmem', hrk⟩ := ih.2 e hmem
            exact ⟨e', List.mem_cons_of_mem a hmem', hrk⟩

/-- After `store_rrsets_go`, every key previously in the store is still
present and every key of the stored list is present. -/
theorem store_rrsets_go_mem (now : Nat) :
    ∀ (l : List UbPackedRrsetKey) (cache : RrsetCache),
      (∀ e ∈ cache, ∃ e' ∈ (store_rrsets_go cache now l).1, e'.rk = e.rk) ∧
      (∀ r ∈ l, ∃ e ∈ (store_rrsets_go cache now l).1, sameKey e.rk r.rk = true) := by
  intro l
  induction l with
  | nil =>
      intro cache
      constructor
      · intro e he
        exact ⟨e, he, rfl⟩
      · intro r hr
        exact absurd hr (List.not_mem_nil r)
  | cons k rest ih =>
      intro cache
      have hstep : (store_rrsets_go cache now (k :: rest)).1 =
          (store_rrsets_go (rrset_cache_update cache k now).1 now rest).1 := by
        simp [store_rrsets_go]
      have hupd := rrset_cache_update_go_mem (freshId cache) k cache
      have hrest := ih (rrset_cache_update cache k now).1
      constructor
      · intro e he
        obtain ⟨e1, hm1, hk1⟩ := hupd.2 e he
        obtain ⟨e2, hm2, hk2⟩ := hrest.1 e1 hm1
        rw [hstep]
        exact ⟨e2, hm2, by rw [hk2, hk1]⟩
      · intro r hr
        rcases List.mem_cons.mp hr with rfl | hmem
        · obtain ⟨e1, hm1, hk1⟩ := hupd.1
          obtain ⟨e2, hm2, hk2⟩ := hrest.1 e1 hm1
          rw [hstep]
          exact ⟨e2, hm2, by rw [hk2]; exact hk1⟩
        · obtain ⟨e, hm, hk⟩ := hrest.2 r hmem
          rw [hstep]
          exact ⟨e, hm, hk⟩

/-- C5: when the reply's captured ttl is 0, `dns_cache_store_msg` leaves the
message cache untouched — the message is not inserted — but every
constituent RRset of the reply is still inserted (merged) into the RRset
cache: the result store contains an entry with each RRset's key. -/
theorem dns_cache_store_msg_ttl_zero (env : ModuleEnv) (qinfo : QueryInfo)
    (hash : Nat) (rep : ReplyInfo) (now : Nat) (h : rep.ttl = 0) :
    (dns_cache_store_msg env qinfo hash rep now).msg_cache = env.msg_cache ∧
    ∀ r ∈ rep.rrsets, ∃ e ∈ (dns_cache_store_msg env qinfo hash rep now).rrset_cache,
      sameKey e.rk r.rk = true := by
  have hmsg : dns_cache_store_msg env qinfo hash rep now =
      { env with rrset_cache :=
          (store_rrsets_go env.rrset_cache now
            (rep.rrsets.map (fun k =>
              { k with data := packed_rrset_ttl_add k.data now }))).1 } := by
    simp only [dns_cache_store_msg, store_rrsets, reply_info_set_ttls,
      reply_info_sortref, h, if_true]
  rw [hmsg]
  constructor
  · rfl
  · intro r hr
    have := (store_rrsets_go_mem now
      (rep.rrsets.map (fun k => { k with data := packed_rrset_ttl_add k.data now }))
      env.rrset_cache).2
      ({ r with data := packed_rrset_ttl_add r.data now })
      (List.mem_map_of_mem _ hr)
    obtain ⟨e, hm, hk⟩ := this
    exact ⟨e, hm, hk⟩

/-- Reply used for the C5 witness : one NS RRset, message ttl 0. -/
def nsRRset : UbPackedRrsetKey :=
  { rk := { dname := [1, 97, 0], dname_len := 3, type := 2, rrclass := 1, flags := 0 }
    id := 0
    hash := 0
    data := { count := 1, rrsig_count := 0, rr_len := [6]
              rr_data := [[0, 4, 2, 110, 115, 0]]
              rr_ttl := [60], ttl := 60, trust := 6, security := 0 } }

/-- A zero-ttl reply holding `nsRRset`. -/
def repC5 : ReplyInfo :=
  { flags := 32768, qdcount := 1, ttl := 0
    an_numrrsets := 0, ns_numrrsets := 1, ar_numrrsets := 0, rrset_count := 1
    rrsets := [nsRRset], refs := [] }

/-- Witness for `dns_cache_store_msg_ttl_zero` on an empty environment. -/
theorem dns_cache_store_msg_ttl_zero_witness :
    (dns_cache_store_msg ⟨[], []⟩ qiC1 12 repC5 100).msg_cache = ([] : MsgCache) ∧
    ∀ r ∈ repC5.rrsets, ∃ e ∈ (dns_cache_store_msg ⟨[], []⟩ qiC1 12 repC5 100).rrset_cache,
      sameKey e.rk r.rk = true :=
  dns_cache_store_msg_ttl_zero ⟨[], []⟩ qiC1 12 repC5 100 (by decide)

/-! ## Claim C6: the delegation walk -/

theorem findSome?_none_of_all {α β : Type} (f : α → Option β) :
    ∀ l : List α, (∀ a ∈ l, f a = none) → l.findSome? f = none := by
  intro l
  induction l with
  | nil => intro _; rfl
  | cons a rest ih =>
      intro h
      rw [List.findSome?_cons, h a (List.mem_cons_self a rest)]
      exact ih (fun x hx => h x (List.mem_cons_of_mem a hx))

/-- Embeds `find_closest_of_type` computes exactly the first hit of the ancestor
walk: the `findSome?` of the cache lookup over the suffix list obtained by
stripping one front label at a time. -/
theorem fct_eq_findSome (cache : RrsetCache) (qcl now ty : Nat) :
    ∀ (qnamelen : Nat) (qname : List Nat),
      find_closest_of_type cache qname qnamelen qcl now ty =
        (nameSuffixes qname qnamelen).findSome?
          (fun s => rrset_cache_lookup cache s.1 s.2 ty qcl 0 now) := by
  intro qnamelen
  induction qnamelen using Nat.strong_induction_on with
  | _ n ih =>
      intro qname
      by_cases h0 : n = 0
      · subst h0
        rw [fct_zero, nameSuffixes]
        simp
      · rw [nameSuffixes]
        rw [if_neg h0]
        rw [List.findSome?_cons]
        cases hl : rrset_cache_lookup cache qname n ty qcl 0 now with
        | some r =>
            rw [fct_hit cache qname qcl now ty h0 hl]
        | none =>
            rw [fct_miss cache qname qcl now ty h0 hl]
            exact ih (n - (qname.headD 0 + 1)) (by omega) (qname.drop (qname.headD 0 + 1))

theorem add_ns_loop_name : ∀ (l : List (List Nat)) (dp : Delegpt) (region : Nat),
    (add_ns_loop dp region l).1.name = dp.name := by
  intro l
  induction l with
  | nil => intro dp region; rfl
  | cons rd rest ih =>
      intro dp region
      unfold add_ns_loop
      cases region_alloc region with
      | none => rfl
      | some r1 => exact ih _ r1

theorem find_add_one_name (cache : RrsetCache) (qcl : Nat) (ns : DelegptNs)
    (ty : Nat) (isA : Bool) (dp : Delegpt) (msg : Option DnsMsg)
    (region now : Nat) :
    (find_add_one cache qcl ns ty isA dp msg region now).1.name = dp.name := by
  unfold find_add_one
  split
  · rfl
  · split
    · rfl
    · rename_i akey dp1 r1 heq
      unfold delegpt_add_rrset_addr at heq
      simp only [Option.bind_eq_bind, Option.bind_eq_some] at heq
      obtain ⟨⟨ck, rr⟩, _, heq⟩ := heq
      cases isA <;> simp only [Bool.false_eq_true, if_true, if_false,
        Option.some.injEq, Prod.mk.injEq] at heq <;>
        obtain ⟨h1, h2⟩ := heq <;>
        cases msg <;> rw [← h1]

theorem find_add_addrs_go_name (cache : RrsetCache) (qcl now : Nat) :
    ∀ (l : List DelegptNs) (dp : Delegpt) (msg : Option DnsMsg) (region : Nat),
      (find_add_addrs_go cache qcl dp msg region now l).1.name = dp.name := by
  intro l
  induction l with
  | nil => intro dp msg region; rfl
  | cons ns rest ih =>
      intro dp msg region
      unfold find_add_addrs_go
      rcases hfa : find_add_one cache qcl ns LDNS_RR_TYPE_A true dp msg region now with
        ⟨dp1, msg1, r1, b1⟩
      have h1 : dp1.name = dp.name := by
        have := find_add_one_name cache qcl ns LDNS_RR_TYPE_A true dp msg region now
        rw [hfa] at this
        exact this
      cases b1 with
      | false => simpa using h1
      | true =>
          rcases hfb : find_add_one cache qcl ns LDNS_RR_TYPE_AAAA false dp1 msg1 r1 now with
            ⟨dp2, msg2, r2, b2⟩
          have h2 : dp2.name = dp1.name := by
            have := find_add_one_name cache qcl ns LDNS_RR_TYPE_AAAA false dp1 msg1 r1 now
            rw [hfb] at this
            exact this
          cases b2 with
          | false =>
              simp only [hfb]
              rw [h2, h1]
          | true =>
              simp only [hfb]
              rw [ih dp2 msg2 r2, h2, h1]

/-- Name of the delegation point after the NS-name population step. -/
theorem delegpt_rrset_add_ns_name (dp : Delegpt) (nskey : UbPackedRrsetKey)
    (region : Nat) : (delegpt_rrset_add_ns dp nskey region).1.name = dp.name :=
  add_ns_loop_name (nskey.data.rr_data.take nskey.data.count) dp region

/-- Name of the delegation point after the glue population step. -/
theorem find_add_addrs_name (cache : RrsetCache) (qcl : Nat) (dp : Delegpt)
    (msg : Option DnsMsg) (region now : Nat) :
    (find_add_addrs cache qcl dp msg region now).1.name = dp.name :=
  find_add_addrs_go_name cache qcl now dp.nslist dp msg region

/-- C6: `dns_cache_find_delegation` walks `qname` and its ancestors one
label at a time looking up type NS (`find_closest_of_type` equals the first
hit of the lookup along the suffix walk, i.e. the longest matching suffix);
when no NS RRset is cached at any suffix up to and including the root it
returns `none`; and on a hit the returned DelegationPoint's owner name is
the NS RRset's owner. -/
theorem dns_cache_find_delegation_walk (env : ModuleEnv) (qname : List Nat)
    (qnamelen qtype qcl region now : Nat) (wantMsg : Bool) :
    (find_closest_of_type env.rrset_cache qname qnamelen qcl now LDNS_RR_TYPE_NS =
      (nameSuffixes qname qnamelen).findSome?
        (fun s => rrset_cache_lookup env.rrset_cache s.1 s.2 LDNS_RR_TYPE_NS qcl 0 now)) ∧
    ((∀ s ∈ nameSuffixes qname qnamelen,
        rrset_cache_lookup env.rrset_cache s.1 s.2 LDNS_RR_TYPE_NS qcl 0 now = none) →
      dns_cache_find_delegation env qname qnamelen qtype qcl region wantMsg now = none) ∧
    (∀ nskey dp msgopt,
      find_closest_of_type env.rrset_cache qname qnamelen qcl now LDNS_RR_TYPE_NS =
        some nskey →
      dns_cache_find_delegation env qname qnamelen qtype qcl region wantMsg now =
        some (dp, msgopt) →
      dp.name = nskey.rk.dname) := by
  refine ⟨fct_eq_findSome env.rrset_cache qcl now LDNS_RR_TYPE_NS qnamelen qname,
    ?_, ?_⟩
  · intro hall
    have hn : find_closest_of_type env.rrset_cache qname qnamelen qcl now
        LDNS_RR_TYPE_NS = none := by
      rw [fct_eq_findSome env.rrset_cache qcl now LDNS_RR_TYPE_NS qnamelen qname]
      exact findSome?_none_of_all _ _ hall
    simp only [dns_cache_find_delegation, hn]
  · intro nskey dp msgopt hfct hdel
    unfold dns_cache_find_delegation at hdel
    rw [hfct] at hdel
    simp only [] at hdel
    cases hcr : delegpt_create region with
    | none => rw [hcr] at hdel; exact absurd hdel (by simp)
    | some pr =>
        rw [hcr] at hdel
        obtain ⟨dp0, r1⟩ := pr
        simp only [] at hdel
        cases hsn : delegpt_set_name dp0 nskey.rk.dname nskey.rk.dname_len r1 with
        | none => rw [hsn] at hdel; exact absurd hdel (by simp)
        | some pr2 =>
            rw [hsn] at hdel
            obtain ⟨dp1, r2⟩ := pr2
            simp only [] at hdel
            have hname1 : dp1.name = nskey.rk.dname := by
              unfold delegpt_set_name at hsn
              simp only [Option.bind_eq_bind, Option.bind_eq_some, Option.some.injEq,
                Prod.mk.injEq] at hsn
              obtain ⟨r', _, hsn, _⟩ := hsn
              rw [← hsn]
            cases wantMsg with
            | true =>
                rw [if_pos rfl] at hdel
                cases hcm : create_msg qname qnamelen qtype qcl r2 nskey now with
                | none => rw [hcm] at hdel; exact absurd hdel (by simp)
                | some pr3 =>
                    rw [hcm] at hdel
                    obtain ⟨msg0, r3⟩ := pr3
                    simp only [Option.some.injEq, Prod.mk.injEq] at hdel
                    obtain ⟨hdp, _⟩ := hdel
                    rw [← hdp, find_add_addrs_name, delegpt_rrset_add_ns_name, hname1]
            | false =>
                rw [if_neg (by simp)] at hdel
                simp only [Option.some.injEq, Prod.mk.injEq] at hdel
                obtain ⟨hdp, _⟩ := hdel
                rw [← hdp, find_add_addrs_name, delegpt_rrset_add_ns_name, hname1]

/-- NS RRset cached at `com.` with one nameserver name `n.`. -/
def nsAtCom : UbPackedRrsetKey :=
  { rk := { dname := [3, 99, 111, 109, 0], dname_len := 5, type := 2, rrclass := 1, flags := 0 }
    id := 9
    hash := 0
    data := { count := 1, rrsig_count := 0, rr_len := [5]
              rr_data := [[0, 3, 1, 110, 0]]
              rr_ttl := [500], ttl := 500, trust := 7, security := 0 } }

/-- Environment with just that NS RRset. -/
def envC6 : ModuleEnv := { rrset_cache := [nsAtCom], msg_cache := [] }

/-- The ancestor walk for `www.com.` in `envC6` finds the NS at `com.`. -/
theorem fctC6 : find_closest_of_type envC6.rrset_cache
    [3, 119, 119, 119, 3, 99, 111, 109, 0] 9 1 100 LDNS_RR_TYPE_NS = some nsAtCom := by
  rw [fct_miss envC6.rrset_cache [3, 119, 119, 119, 3, 99, 111, 109, 0] 1 100
    LDNS_RR_TYPE_NS (by decide) (by decide)]
  exact fct_hit envC6.rrset_cache [3, 99, 111, 109, 0] 1 100 LDNS_RR_TYPE_NS
    (by decide) (by decide)

/-- The delegation point `dns_cache_find_delegation` builds in `envC6` for
`www.com.` without a referral message. -/
def dpC6 : Delegpt :=
  { name := [3, 99, 111, 109, 0], namelen := 5
    nslist := [{ name := [1, 110, 0], namelen := 3 }]
    addrsA := [], addrsAAAA := [] }

/-- Witness for `dns_cache_find_delegation_walk` (third component) on
`envC6`: the delegation found for `www.com.` sits at `com.`. -/
theorem dns_cache_find_delegation_walk_witness :
    dns_cache_find_delegation envC6 [3, 119, 119, 119, 3, 99, 111, 109, 0] 9 1 1 10 false 100 =
      some (dpC6, none) ∧ dpC6.name = nsAtCom.rk.dname := by
  have hdel : dns_cache_find_delegation envC6 [3, 119, 119, 119, 3, 99, 111, 109, 0]
      9 1 1 10 false 100 = some (dpC6, none) := by
    unfold dns_cache_find_delegation
    rw [fctC6]
    decide
  exact ⟨hdel,
    (dns_cache_find_delegation_walk envC6 [3, 119, 119, 119, 3, 99, 111, 109, 0]
        9 1 1 10 100 false).2.2 nsAtCom dpC6 none fctC6 hdel⟩

/-! ## Claim C7: which allocation failures are fatal in find_delegation -/

/-- C7 counterexample: with the NS RRset found (`fctC6`), an allocation
failure right after — creating the DelegationPoint itself, here from an
exhausted arena — makes `dns_cache_find_delegation` return `none`, not a
partially populated DelegationPoint.  This refutes the claim that *every*
allocation failure after the NS hit still returns the DelegationPoint. -/
theorem dns_cache_find_delegation_oom_none :
    find_closest_of_type envC6.rrset_cache [3, 119, 119, 119, 3, 99, 111, 109, 0]
      9 1 100 LDNS_RR_TYPE_NS = some nsAtCom ∧
    dns_cache_find_delegation envC6 [3, 119, 119, 119, 3, 99, 111, 109, 0]
      9 1 1 0 true 100 = none := by
  refine ⟨fctC6, ?_⟩
  unfold dns_cache_find_delegation
  rw [fctC6]
  decide

/-- The referral message as first built by `create_msg`: query copy, QR
flag without AA, the copied NS RRset as the only (authority) RRset. -/
def createMsgResult (qname : List Nat) (qnamelen qtype qcl : Nat)
    (nskey : UbPackedRrsetKey) (now : Nat) : DnsMsg :=
  { qinfo := { qname := qname, qname_len := qnamelen, qtype := qtype, qcl := qcl }
    rep := { flags := BIT_QR, qdcount := 1, ttl := 0
             an_numrrsets := 0, ns_numrrsets := 1, ar_numrrsets := 0
             rrset_count := 1, rrsets := [copiedRrset nskey now], refs := [] } }

theorem create_msg_eval (qname : List Nat) (qnamelen qtype qcl : Nat)
    (nskey : UbPackedRrsetKey) (now : Nat) {r : Nat} (h : 7 ≤ r) :
    create_msg qname qnamelen qtype qcl r nskey now =
      some (createMsgResult qname qnamelen qtype qcl nskey now, r - 7) := by
  have h0 : r ≠ 0 := by omega
  have h1 : r - 1 ≠ 0 := by omega
  have h2 : r - 1 - 1 ≠ 0 := by omega
  have h3 : r - 1 - 1 - 1 ≠ 0 := by omega
  have h7 : r - 1 - 1 - 1 - 1 - 3 = r - 7 := by omega
  simp only [create_msg, Option.bind_eq_bind, region_alloc_pos h0, Option.some_bind,
    region_alloc_pos h1, region_alloc_pos h2, region_alloc_pos h3,
    copy_rrset_eval nskey now (by omega : 3 ≤ r - 1 - 1 - 1 - 1), h7, createMsgResult]

/-- C7 (amended): once the DelegationPoint and the referral message have
been allocated — which needs 9 arena credits after the NS hit — every later
allocation failure (NS-name population, DS/NSEC copy, glue attachment) is
non-fatal: `dns_cache_find_delegation` still returns a (partially
populated) DelegationPoint.  Allocation failures *before* that point
(creating the DelegationPoint or the referral message) return `none`
instead. -/
theorem find_delegation_survives_late_oom (env : ModuleEnv) (qname : List Nat)
    (qnamelen qtype qcl now : Nat) (nskey : UbPackedRrsetKey) {region : Nat}
    (hfct : find_closest_of_type env.rrset_cache qname qnamelen qcl now
      LDNS_RR_TYPE_NS = some nskey)
    (hreg : 9 ≤ region) :
    (dns_cache_find_delegation env qname qnamelen qtype qcl region true now).isSome =
      true := by
  unfold dns_cache_find_delegation
  rw [hfct]
  simp only [delegpt_create, delegpt_set_name, Option.bind_eq_bind,
    region_alloc_pos (show region ≠ 0 by omega), Option.some_bind,
    region_alloc_pos (show region - 1 ≠ 0 by omega),
    create_msg_eval qname qnamelen qtype qcl nskey now
      (show 7 ≤ region - 1 - 1 by omega),
    ite_true, Option.isSome_some]

/-- Witness for `find_delegation_survives_late_oom`: in `envC6` with
exactly 9 credits the create phase consumes the whole arena, the NS-name
and glue steps fail to allocate, and a DelegationPoint is still returned. -/
theorem find_delegation_survives_late_oom_witness :
    (dns_cache_find_delegation envC6 [3, 119, 119, 119, 3, 99, 111, 109, 0]
      9 1 1 9 true 100).isSome = true :=
  find_delegation_survives_late_oom envC6 [3, 119, 119, 119, 3, 99, 111, 109, 0]
    9 1 1 100 nsAtCom fctC6 (by decide)
